import Mathlib

/-!
Verification of the SwarmMind.io simulation engine (src/engine.h, src/engine.cpp).

The C++ engine is shallowly embedded here: `float` becomes `ℚ` (the engine's
arithmetic on the paths verified below is ratios, comparisons, additions and
multiplications, all exact), machine integers become `ℕ`/`ℤ` with explicit
wrapping where a narrowing cast occurs, and `std::vector`/`std::unordered_map`
become lists.  Out-of-range vector indexing — undefined behaviour in the C++ —
is modelled by optional indexing, whose `none` branch the correctness claims assert
to be unreachable.
-/

namespace SwarmMind

/-! ### Constants (engine.h) -/

def MAP_WIDTH : ℚ := 4000
def MAP_HEIGHT : ℚ := 4000
def MAX_BOIDS_PER_PLAYER : ℕ := 200
def INITIAL_BOIDS : ℕ := 10
def BOID_BASE_COLLECT_RANGE : ℚ := 40
def MAX_RESOURCES : ℕ := 300
def RESOURCE_SPAWN_RATE : ℚ := 1/2
def COMBAT_ABSORB_RADIUS : ℚ := 20
def BOOST_DRAIN_RATE : ℚ := 4/100
def BOOST_RECHARGE_RATE : ℚ := 12/1000
def BOOST_MIN_FUEL : ℚ := 5/100
def MAX_PICKUPS : ℕ := 20
def PICKUP_SPAWN_INTERVAL : ℚ := 60
def PICKUP_COLLECT_RADIUS : ℚ := 30
def SHIELD_DURATION : ℤ := 60
def SPEED_BURST_DURATION : ℤ := 80
def SLOW_DURATION : ℤ := 60
def SCATTER_FORCE : ℚ := 8
def MINE_KILL_COUNT : ℕ := 4
def QUADTREE_MAX_OBJECTS : ℕ := 8
def QUADTREE_MAX_LEVELS : ℕ := 6

/-! ### Geometry (engine.h: Vec2, Rect) -/

structure Vec2 where
  x : ℚ
  y : ℚ
deriving DecidableEq

def Vec2.add (a b : Vec2) : Vec2 := ⟨a.x + b.x, a.y + b.y⟩

def Vec2.sub (a b : Vec2) : Vec2 := ⟨a.x - b.x, a.y - b.y⟩

def Vec2.smul (a : Vec2) (s : ℚ) : Vec2 := ⟨a.x * s, a.y * s⟩

def Vec2.lengthSq (a : Vec2) : ℚ := a.x * a.x + a.y * a.y

structure Rect where
  x : ℚ
  y : ℚ
  w : ℚ
  h : ℚ
deriving DecidableEq

/-- `Rect::contains`: half-open containment test. -/
def Rect.containsPt (r : Rect) (px py : ℚ) : Prop :=
  px ≥ r.x ∧ px < r.x + r.w ∧ py ≥ r.y ∧ py < r.y + r.h

instance (r : Rect) (px py : ℚ) : Decidable (r.containsPt px py) := by
  unfold Rect.containsPt; infer_instance

/-- `Rect::intersects`: closed axis-aligned overlap test. -/
def Rect.intersects (r o : Rect) : Prop :=
  ¬(o.x > r.x + r.w ∨ o.x + o.w < r.x ∨ o.y > r.y + r.h ∨ o.y + o.h < r.y)

instance (r o : Rect) : Decidable (r.intersects o) := by
  unfold Rect.intersects; infer_instance

/-! ### QuadTree (engine.h / engine.cpp) -/

structure QTEntry where
  boidIndex : ℕ
  x : ℚ
  y : ℚ
deriving DecidableEq

/-- The quadtree: a node is either undivided (`leaf`) or divided into four
children (`node`); both carry locally stored objects, mirroring the C++
`objects_` vector plus the `divided_` flag. -/
inductive QuadTree where
  | leaf (bounds : Rect) (level : ℕ) (objects : List QTEntry)
  | node (bounds : Rect) (level : ℕ) (objects : List QTEntry)
      (c0 c1 c2 c3 : QuadTree)
deriving DecidableEq

def QuadTree.boundsOf : QuadTree → Rect
  | .leaf b _ _ => b
  | .node b _ _ _ _ _ _ => b

/-- The four quadrant rectangles produced by `QuadTree::subdivide`. -/
def childRect (b : Rect) : Fin 4 → Rect :=
  fun i =>
    let hw := b.w * (1/2)
    let hh := b.h * (1/2)
    match i with
    | 0 => ⟨b.x, b.y, hw, hh⟩
    | 1 => ⟨b.x + hw, b.y, hw, hh⟩
    | 2 => ⟨b.x, b.y + hh, hw, hh⟩
    | 3 => ⟨b.x + hw, b.y + hh, hw, hh⟩

/-- Inserting into a freshly subdivided child (an empty leaf): the child
re-applies its own containment check and, being under capacity, stores the
entry locally. -/
def freshChildInsert (b : Rect) (lvl : ℕ) (e : QTEntry) : QuadTree :=
  if b.containsPt e.x e.y then .leaf b lvl [e] else .leaf b lvl []

/-- `QuadTree::insert`. -/
def QuadTree.insert : QuadTree → QTEntry → QuadTree
  | .leaf b lvl objs, e =>
    if ¬ b.containsPt e.x e.y then .leaf b lvl objs
    else if objs.length < QUADTREE_MAX_OBJECTS ∨ QUADTREE_MAX_LEVELS ≤ lvl then
      .leaf b lvl (objs ++ [e])
    else
      .node b lvl objs
        (freshChildInsert (childRect b 0) (lvl+1) e)
        (freshChildInsert (childRect b 1) (lvl+1) e)
        (freshChildInsert (childRect b 2) (lvl+1) e)
        (freshChildInsert (childRect b 3) (lvl+1) e)
  | .node b lvl objs c0 c1 c2 c3, e =>
    if ¬ b.containsPt e.x e.y then .node b lvl objs c0 c1 c2 c3
    else if objs.length < QUADTREE_MAX_OBJECTS ∨ QUADTREE_MAX_LEVELS ≤ lvl then
      .node b lvl (objs ++ [e]) c0 c1 c2 c3
    else
      .node b lvl objs (c0.insert e) (c1.insert e) (c2.insert e) (c3.insert e)

/-- `QuadTree::query` (the `found` accumulator is returned). -/
def QuadTree.query : QuadTree → Rect → List QTEntry
  | .leaf b _ objs, range =>
    if ¬ b.intersects range then []
    else objs.filter (fun o => decide (range.containsPt o.x o.y))
  | .node b _ objs c0 c1 c2 c3, range =>
    if ¬ b.intersects range then []
    else objs.filter (fun o => decide (range.containsPt o.x o.y))
      ++ c0.query range ++ c1.query range ++ c2.query range ++ c3.query range

/-- All entries stored anywhere in the tree. -/
def QuadTree.toList : QuadTree → List QTEntry
  | .leaf _ _ objs => objs
  | .node _ _ objs c0 c1 c2 c3 =>
    objs ++ c0.toList ++ c1.toList ++ c2.toList ++ c3.toList

/-- Structural invariant maintained by `insert` starting from a cleared tree:
locally stored entries lie in the node's bounds, and children occupy the four
quadrants of their parent. -/
def QuadTree.wf : QuadTree → Prop
  | .leaf b _ objs => ∀ e ∈ objs, b.containsPt e.x e.y
  | .node b _ objs c0 c1 c2 c3 =>
    (∀ e ∈ objs, b.containsPt e.x e.y) ∧
    c0.boundsOf = childRect b 0 ∧ c1.boundsOf = childRect b 1 ∧
    c2.boundsOf = childRect b 2 ∧ c3.boundsOf = childRect b 3 ∧
    c0.wf ∧ c1.wf ∧ c2.wf ∧ c3.wf

/-- `QuadTree::clear` followed by re-rooting: the empty tree over `b`. -/
def clearedTree (b : Rect) : QuadTree := .leaf b 0 []

/-- Insert a list of entries, left to right. -/
def buildTree (b : Rect) (es : List QTEntry) : QuadTree :=
  es.foldl QuadTree.insert (clearedTree b)

/-! ### Quadrant geometry lemmas -/

theorem childRect_partition (b : Rect) (px py : ℚ) :
    b.containsPt px py ↔
      ((childRect b 0).containsPt px py ∨ (childRect b 1).containsPt px py ∨
       (childRect b 2).containsPt px py ∨ (childRect b 3).containsPt px py) := by
  simp only [Rect.containsPt, childRect]
  constructor
  · rintro ⟨hx1, hx2, hy1, hy2⟩
    rcases lt_or_le px (b.x + b.w * (1/2)) with hx | hx <;>
      rcases lt_or_le py (b.y + b.h * (1/2)) with hy | hy
    · exact Or.inl ⟨hx1, hx, hy1, hy⟩
    · exact Or.inr (Or.inr (Or.inl ⟨hx1, hx, hy, by linarith⟩))
    · exact Or.inr (Or.inl ⟨hx, by linarith, hy1, hy⟩)
    · exact Or.inr (Or.inr (Or.inr ⟨hx, by linarith, hy, by linarith⟩))
  · rintro (⟨hx1, hx2, hy1, hy2⟩ | ⟨hx1, hx2, hy1, hy2⟩ |
      ⟨hx1, hx2, hy1, hy2⟩ | ⟨hx1, hx2, hy1, hy2⟩) <;>
      refine ⟨by linarith, by linarith, by linarith, by linarith⟩

theorem childRect_disjoint (b : Rect) (px py : ℚ) (i j : Fin 4) (hij : i ≠ j)
    (hi : (childRect b i).containsPt px py) :
    ¬ (childRect b j).containsPt px py := by
  fin_cases i <;> fin_cases j <;> simp_all only [ne_eq, not_true_eq_false] <;>
    simp only [Rect.containsPt, childRect] at hi ⊢ <;>
    rintro ⟨hx1, hx2, hy1, hy2⟩ <;> obtain ⟨gx1, gx2, gy1, gy2⟩ := hi <;> linarith

theorem childRect_subset (b : Rect) (px py : ℚ) (i : Fin 4)
    (hi : (childRect b i).containsPt px py) : b.containsPt px py := by
  rw [childRect_partition]
  fin_cases i
  · exact Or.inl hi
  · exact Or.inr (Or.inl hi)
  · exact Or.inr (Or.inr (Or.inl hi))
  · exact Or.inr (Or.inr (Or.inr hi))

theorem contains_intersects {r b : Rect} {px py : ℚ}
    (hr : r.containsPt px py) (hb : b.containsPt px py) : b.intersects r := by
  obtain ⟨a1, a2, a3, a4⟩ := hr
  obtain ⟨c1, c2, c3, c4⟩ := hb
  simp only [Rect.intersects, not_or]
  refine ⟨by push_neg; linarith, by push_neg; linarith,
    by push_neg; linarith, by push_neg; linarith⟩

/-! ### QuadTree correctness -/

theorem wf_freshChildInsert (b : Rect) (lvl : ℕ) (e : QTEntry) :
    (freshChildInsert b lvl e).wf := by
  unfold freshChildInsert
  split <;> simp_all [QuadTree.wf]

theorem boundsOf_freshChildInsert (b : Rect) (lvl : ℕ) (e : QTEntry) :
    (freshChildInsert b lvl e).boundsOf = b := by
  unfold freshChildInsert
  split <;> rfl

theorem boundsOf_insert (t : QuadTree) (e : QTEntry) :
    (t.insert e).boundsOf = t.boundsOf := by
  cases t with
  | leaf b lvl objs =>
    unfold QuadTree.insert
    split
    · rfl
    · split <;> rfl
  | node b lvl objs c0 c1 c2 c3 =>
    unfold QuadTree.insert
    split
    · rfl
    · split <;> rfl

/-- A list equal to `l₁ ++ a :: l₂` is a permutation of `a` consed onto a list
equal to `l₁ ++ l₂`. -/
theorem perm_cons_shift {α : Type} (l₁ l₂ : List α) (a : α) {m r : List α}
    (hm : m = l₁ ++ a :: l₂) (hr : r = l₁ ++ l₂) : m.Perm (a :: r) := by
  subst hm; subst hr; exact List.perm_middle

theorem wf_insert (t : QuadTree) (e : QTEntry) (h : t.wf) : (t.insert e).wf := by
  induction t with
  | leaf b lvl objs =>
    unfold QuadTree.insert
    split
    · exact h
    · next hc =>
      push_neg at hc
      split
      · intro x hx
        rcases List.mem_append.mp hx with hx | hx
        · exact h x hx
        · simp only [List.mem_singleton] at hx; subst hx; exact hc
      · refine ⟨h, ?_, ?_, ?_, ?_, ?_, ?_, ?_, ?_⟩ <;>
          first
            | apply boundsOf_freshChildInsert
            | apply wf_freshChildInsert
  | node b lvl objs c0 c1 c2 c3 ih0 ih1 ih2 ih3 =>
    obtain ⟨hobjs, hb0, hb1, hb2, hb3, h0, h1, h2, h3⟩ := h
    unfold QuadTree.insert
    split
    · exact ⟨hobjs, hb0, hb1, hb2, hb3, h0, h1, h2, h3⟩
    · next hc =>
      push_neg at hc
      split
      · refine ⟨?_, hb0, hb1, hb2, hb3, h0, h1, h2, h3⟩
        intro x hx
        rcases List.mem_append.mp hx with hx | hx
        · exact hobjs x hx
        · simp only [List.mem_singleton] at hx; subst hx; exact hc
      · refine ⟨hobjs, ?_, ?_, ?_, ?_, ih0 h0, ih1 h1, ih2 h2, ih3 h3⟩ <;>
          rw [boundsOf_insert] <;> assumption

theorem toList_freshChildInsert (b : Rect) (lvl : ℕ) (e : QTEntry) :
    (freshChildInsert b lvl e).toList =
      if b.containsPt e.x e.y then [e] else [] := by
  unfold freshChildInsert
  split <;> simp [QuadTree.toList]

theorem toList_insert (t : QuadTree) (e : QTEntry) (h : t.wf) :
    (t.insert e).toList.Perm
      (if t.boundsOf.containsPt e.x e.y then e :: t.toList else t.toList) := by
  induction t with
  | leaf b lvl objs =>
    unfold QuadTree.insert
    split
    · next hc => simp only [QuadTree.boundsOf, if_neg hc]; exact List.Perm.refl _
    · next hc =>
      push_neg at hc
      simp only [QuadTree.boundsOf, if_pos hc]
      split
      · exact perm_cons_shift objs [] e (by simp [QuadTree.toList])
          (by simp [QuadTree.toList])
      · simp only [QuadTree.toList, toList_freshChildInsert]
        rw [childRect_partition b e.x e.y] at hc
        rcases hc with hk | hk | hk | hk
        · rw [if_pos hk, if_neg (childRect_disjoint b e.x e.y 0 1 (by decide) hk),
            if_neg (childRect_disjoint b e.x e.y 0 2 (by decide) hk),
            if_neg (childRect_disjoint b e.x e.y 0 3 (by decide) hk)]
          exact perm_cons_shift objs [] e (by simp) (by simp)
        · rw [if_neg (childRect_disjoint b e.x e.y 1 0 (by decide) hk), if_pos hk,
            if_neg (childRect_disjoint b e.x e.y 1 2 (by decide) hk),
            if_neg (childRect_disjoint b e.x e.y 1 3 (by decide) hk)]
          exact perm_cons_shift objs [] e (by simp) (by simp)
        · rw [if_neg (childRect_disjoint b e.x e.y 2 0 (by decide) hk),
            if_neg (childRect_disjoint b e.x e.y 2 1 (by decide) hk), if_pos hk,
            if_neg (childRect_disjoint b e.x e.y 2 3 (by decide) hk)]
          exact perm_cons_shift objs [] e (by simp) (by simp)
        · rw [if_neg (childRect_disjoint b e.x e.y 3 0 (by decide) hk),
            if_neg (childRect_disjoint b e.x e.y 3 1 (by decide) hk),
            if_neg (childRect_disjoint b e.x e.y 3 2 (by decide) hk), if_pos hk]
          exact perm_cons_shift objs [] e (by simp) (by simp)
  | node b lvl objs c0 c1 c2 c3 ih0 ih1 ih2 ih3 =>
    obtain ⟨hobjs, hb0, hb1, hb2, hb3, h0, h1, h2, h3⟩ := h
    unfold QuadTree.insert
    split
    · next hc => simp only [QuadTree.boundsOf, if_neg hc]; exact List.Perm.refl _
    · next hc =>
      push_neg at hc
      simp only [QuadTree.boundsOf, if_pos hc]
      split
      · simp only [QuadTree.toList]
        exact perm_cons_shift objs
          (c0.toList ++ c1.toList ++ c2.toList ++ c3.toList) e (by simp) (by simp)
      · have key := childRect_partition b e.x e.y |>.mp hc
        have p0 := ih0 h0
        have p1 := ih1 h1
        have p2 := ih2 h2
        have p3 := ih3 h3
        rw [hb0] at p0; rw [hb1] at p1; rw [hb2] at p2; rw [hb3] at p3
        simp only [QuadTree.toList]
        rcases key with hk | hk | hk | hk
        · rw [if_pos hk] at p0
          rw [if_neg (childRect_disjoint b e.x e.y 0 1 (by decide) hk)] at p1
          rw [if_neg (childRect_disjoint b e.x e.y 0 2 (by decide) hk)] at p2
          rw [if_neg (childRect_disjoint b e.x e.y 0 3 (by decide) hk)] at p3
          refine ((((List.Perm.refl objs).append p0).append p1).append p2
            |>.append p3).trans ?_
          exact perm_cons_shift objs
            (c0.toList ++ c1.toList ++ c2.toList ++ c3.toList) e (by simp) (by simp)
        · rw [if_neg (childRect_disjoint b e.x e.y 1 0 (by decide) hk)] at p0
          rw [if_pos hk] at p1
          rw [if_neg (childRect_disjoint b e.x e.y 1 2 (by decide) hk)] at p2
          rw [if_neg (childRect_disjoint b e.x e.y 1 3 (by decide) hk)] at p3
          refine ((((List.Perm.refl objs).append p0).append p1).append p2
            |>.append p3).trans ?_
          exact perm_cons_shift (objs ++ c0.toList)
            (c1.toList ++ c2.toList ++ c3.toList) e (by simp) (by simp)
        · rw [if_neg (childRect_disjoint b e.x e.y 2 0 (by decide) hk)] at p0
          rw [if_neg (childRect_disjoint b e.x e.y 2 1 (by decide) hk)] at p1
          rw [if_pos hk] at p2
          rw [if_neg (childRect_disjoint b e.x e.y 2 3 (by decide) hk)] at p3
          refine ((((List.Perm.refl objs).append p0).append p1).append p2
            |>.append p3).trans ?_
          exact perm_cons_shift (objs ++ c0.toList ++ c1.toList)
            (c2.toList ++ c3.toList) e (by simp) (by simp)
        · rw [if_neg (childRect_disjoint b e.x e.y 3 0 (by decide) hk)] at p0
          rw [if_neg (childRect_disjoint b e.x e.y 3 1 (by decide) hk)] at p1
          rw [if_neg (childRect_disjoint b e.x e.y 3 2 (by decide) hk)] at p2
          rw [if_pos hk] at p3
          refine ((((List.Perm.refl objs).append p0).append p1).append p2
            |>.append p3).trans ?_
          exact perm_cons_shift (objs ++ c0.toList ++ c1.toList ++ c2.toList)
            c3.toList e (by simp) (by simp)

theorem toList_mem_bounds (t : QuadTree) (h : t.wf) :
    ∀ e ∈ t.toList, t.boundsOf.containsPt e.x e.y := by
  induction t with
  | leaf b lvl objs => exact h
  | node b lvl objs c0 c1 c2 c3 ih0 ih1 ih2 ih3 =>
    obtain ⟨hobjs, hb0, hb1, hb2, hb3, h0, h1, h2, h3⟩ := h
    intro e he
    simp only [QuadTree.toList, List.mem_append] at he
    rcases he with (((he | he) | he) | he) | he
    · exact hobjs e he
    · exact childRect_subset b e.x e.y 0 (hb0 ▸ ih0 h0 e he)
    · exact childRect_subset b e.x e.y 1 (hb1 ▸ ih1 h1 e he)
    · exact childRect_subset b e.x e.y 2 (hb2 ▸ ih2 h2 e he)
    · exact childRect_subset b e.x e.y 3 (hb3 ▸ ih3 h3 e he)

/-- Under the structural invariant, `query` returns exactly the stored entries
whose points satisfy the range's half-open containment predicate. -/
theorem query_eq_filter_toList (t : QuadTree) (range : Rect) (h : t.wf) :
    t.query range = t.toList.filter (fun o => decide (range.containsPt o.x o.y)) := by
  induction t with
  | leaf b lvl objs =>
    unfold QuadTree.query
    split
    · next hi =>
      rw [eq_comm, List.filter_eq_nil_iff]
      intro e he
      simp only [decide_eq_true_eq]
      intro hcontains
      exact hi (contains_intersects hcontains (h e he))
    · rfl
  | node b lvl objs c0 c1 c2 c3 ih0 ih1 ih2 ih3 =>
    obtain ⟨hobjs, hb0, hb1, hb2, hb3, h0, h1, h2, h3⟩ := h
    unfold QuadTree.query
    split
    · next hi =>
      rw [eq_comm, List.filter_eq_nil_iff]
      intro e he
      simp only [decide_eq_true_eq]
      intro hcontains
      exact hi (contains_intersects hcontains
        (toList_mem_bounds (QuadTree.node b lvl objs c0 c1 c2 c3)
          ⟨hobjs, hb0, hb1, hb2, hb3, h0, h1, h2, h3⟩ e he))
    · simp only [QuadTree.toList, List.filter_append, ih0 h0, ih1 h1, ih2 h2, ih3 h3]

theorem wf_clearedTree (b : Rect) : (clearedTree b).wf := by
  intro e he
  simp [clearedTree] at he

theorem wf_buildTree (b : Rect) (es : List QTEntry) : (buildTree b es).wf := by
  unfold buildTree
  induction es generalizing b with
  | nil => exact wf_clearedTree b
  | cons e rest ih =>
    rw [List.foldl_cons]
    have : ∀ (t : QuadTree), t.wf → (rest.foldl QuadTree.insert t).wf := by
      clear ih
      induction rest with
      | nil => intro t ht; exact ht
      | cons f rest2 ih2 =>
        intro t ht
        rw [List.foldl_cons]
        exact ih2 _ (wf_insert t f ht)
    exact this _ (wf_insert _ e (wf_clearedTree b))

theorem boundsOf_foldl_insert (t : QuadTree) (es : List QTEntry) :
    (es.foldl QuadTree.insert t).boundsOf = t.boundsOf := by
  induction es generalizing t with
  | nil => rfl
  | cons e rest ih => rw [List.foldl_cons, ih, boundsOf_insert]

theorem wf_foldl_insert (t : QuadTree) (es : List QTEntry) (h : t.wf) :
    (es.foldl QuadTree.insert t).wf := by
  induction es generalizing t with
  | nil => exact h
  | cons e rest ih => rw [List.foldl_cons]; exact ih _ (wf_insert t e h)

theorem toList_buildTree (b : Rect) (es : List QTEntry)
    (h : ∀ e ∈ es, b.containsPt e.x e.y) :
    (buildTree b es).toList.Perm es := by
  unfold buildTree
  have key : ∀ (t : QuadTree), t.wf → t.boundsOf = b →
      (es.foldl QuadTree.insert t).toList.Perm (t.toList ++ es) := by
    induction es with
    | nil => intro t _ _; simp
    | cons e rest ih =>
      intro t ht htb
      rw [List.foldl_cons]
      have h1 : (t.insert e).toList.Perm (e :: t.toList) := by
        have := toList_insert t e ht
        rwa [htb, if_pos (h e (List.mem_cons_self e rest))] at this
      have h2 := ih (fun f hf => h f (List.mem_cons_of_mem e hf)) (t.insert e)
        (wf_insert t e ht) (by rw [boundsOf_insert, htb])
      refine h2.trans ?_
      have : ((t.insert e).toList ++ rest).Perm ((e :: t.toList) ++ rest) :=
        h1.append (List.Perm.refl rest)
      refine this.trans ?_
      exact (perm_cons_shift t.toList rest e rfl rfl).symm
  simpa using key (clearedTree b) (wf_clearedTree b) rfl

/-- C2, main statement: building a cleared quadtree over any root bounds from
any list of entries whose points lie inside those bounds, a query returns a
permutation of the entries satisfying the half-open containment predicate. -/
theorem query_buildTree_perm (b : Rect) (es : List QTEntry) (range : Rect)
    (h : ∀ e ∈ es, b.containsPt e.x e.y) :
    ((buildTree b es).query range).Perm
      (es.filter (fun o => decide (range.containsPt o.x o.y))) := by
  rw [query_eq_filter_toList _ _ (wf_buildTree b es)]
  exact (toList_buildTree b es h).filter _

/-! ### Entities (engine.h) -/

structure Mutations where
  speed : ℚ
  cohesion : ℚ
  aggression : ℚ
  collectRange : ℚ
deriving DecidableEq

def Mutations.initial : Mutations := ⟨1, 1, 1, 1⟩

structure Player where
  id : ℕ
  cursor : Vec2
  mutations : Mutations
  score : ℤ
  alive : Bool
  boosting : Bool
  boostFuel : ℚ
  shieldTicks : ℤ
  speedBurstTicks : ℤ
  slowTicks : ℤ
deriving DecidableEq

/-- A freshly constructed player record (engine.h defaults plus the cursor
assignment in `addPlayer`). -/
def Player.fresh (pid : ℕ) : Player :=
  { id := pid, cursor := ⟨MAP_WIDTH * (1/2), MAP_HEIGHT * (1/2)⟩,
    mutations := Mutations.initial, score := 0, alive := true,
    boosting := false, boostFuel := 1, shieldTicks := 0,
    speedBurstTicks := 0, slowTicks := 0 }

structure Boid where
  id : ℕ
  playerId : ℕ
  pos : Vec2
  vel : Vec2
deriving DecidableEq

structure Resource where
  id : ℕ
  pos : Vec2
  value : ℤ
  rtype : ℕ
  active : Bool
deriving DecidableEq

structure Pickup where
  id : ℕ
  pos : Vec2
  ptype : ℕ
  active : Bool
deriving DecidableEq

/-- `GameEngine`'s mutable state.  `players_` (an `unordered_map`) is modelled
as a list of records with unique ids, in iteration order. -/
structure EngineState where
  players : List Player
  boids : List Boid
  resources : List Resource
  pickups : List Pickup
  nextPlayerId : ℕ
  nextBoidId : ℕ
  nextResourceId : ℕ
  nextPickupId : ℕ
  resourceSpawnAccum : ℚ
  pickupSpawnAccum : ℚ
deriving DecidableEq

/-- `players_.find(pid)`. -/
def findPlayer (players : List Player) (pid : ℕ) : Option Player :=
  players.find? (fun p => p.id == pid)

/-- In-place mutation of the player record with id `pid` (through the map
iterator in the C++). -/
def updatePlayer (players : List Player) (pid : ℕ) (f : Player → Player) :
    List Player :=
  players.map (fun p => if p.id == pid then f p else p)

/-! ### Lifecycle and input API (engine.cpp) -/

/-- `GameEngine::spawnBoidsForPlayer`: spread and velocity jitters drawn from
the RNG are oracle parameters. -/
def spawnBoidsForPlayer (center : Vec2) (spread : ℕ → Vec2) (vspread : ℕ → Vec2)
    (pid : ℕ) (count : ℕ) (s : EngineState) : EngineState :=
  { s with
    boids := s.boids ++ (List.range count).map (fun i =>
      { id := s.nextBoidId + i, playerId := pid,
        pos := ⟨center.x + (spread i).x, center.y + (spread i).y⟩,
        vel := vspread i }),
    nextBoidId := s.nextBoidId + count }

/-- `GameEngine::addPlayer` (the random spawn cluster is an oracle). -/
def addPlayer (center : Vec2) (spread : ℕ → Vec2) (vspread : ℕ → Vec2)
    (s : EngineState) : EngineState :=
  let pid := s.nextPlayerId
  let s1 := { s with players := s.players ++ [Player.fresh pid],
                     nextPlayerId := s.nextPlayerId + 1 }
  spawnBoidsForPlayer center spread vspread pid INITIAL_BOIDS s1

/-- `GameEngine::removePlayer`. -/
def removePlayer (pid : ℕ) (s : EngineState) : EngineState :=
  { s with players := s.players.filter (fun p => !(p.id == pid)),
           boids := s.boids.filter (fun b => !(b.playerId == pid)) }

/-- `GameEngine::setPlayerCursor`. -/
def setPlayerCursor (pid : ℕ) (x y : ℚ) (s : EngineState) : EngineState :=
  { s with players := updatePlayer s.players pid (fun p => { p with cursor := ⟨x, y⟩ }) }

/-- `GameEngine::setPlayerBoost`. -/
def setPlayerBoost (pid : ℕ) (active : Bool) (s : EngineState) : EngineState :=
  { s with players := updatePlayer s.players pid (fun p => { p with boosting := active }) }

/-! ### Tick pipeline, step 0: boost fuel (engine.cpp, GameEngine::tick) -/

/-- The per-player boost-fuel update at the top of `tick()`. -/
def updateBoostFuel (p : Player) : Player :=
  let p1 :=
    if p.boosting ∧ p.boostFuel > 0 then
      let f := p.boostFuel - BOOST_DRAIN_RATE
      if f ≤ 0 then { p with boostFuel := 0, boosting := false }
      else { p with boostFuel := f }
    else if ¬ p.boosting ∧ p.boostFuel < 1 then
      let f := p.boostFuel + BOOST_RECHARGE_RATE
      { p with boostFuel := if f > 1 then 1 else f }
    else p
  if p1.boosting ∧ p1.boostFuel < BOOST_MIN_FUEL then { p1 with boosting := false }
  else p1

def boostFuelPhase (s : EngineState) : EngineState :=
  { s with players := s.players.map updateBoostFuel }

/-- `GameEngine::tickPlayerEffects`. -/
def tickPlayerEffects (s : EngineState) : EngineState :=
  { s with players := s.players.map (fun p =>
      { p with
        shieldTicks := if 0 < p.shieldTicks then p.shieldTicks - 1 else p.shieldTicks,
        speedBurstTicks :=
          if 0 < p.speedBurstTicks then p.speedBurstTicks - 1 else p.speedBurstTicks,
        slowTicks := if 0 < p.slowTicks then p.slowTicks - 1 else p.slowTicks }) }

/-! ### Spawning (engine.cpp) -/

/-- `GameEngine::spawnResources` (random position, value and type are
oracles). -/
def spawnResources (rpos : Vec2) (rval : ℤ) (rty : ℕ) (s : EngineState) :
    EngineState :=
  let activeCount := (s.resources.filter (fun r => r.active)).length
  if MAX_RESOURCES ≤ activeCount then s
  else
    { s with
      resources := s.resources ++
        [{ id := s.nextResourceId, pos := rpos, value := rval, rtype := rty,
           active := true }],
      nextResourceId := s.nextResourceId + 1 }

/-- `GameEngine::spawnPickups` (random position and type are oracles).  Note
the order in the source: the active-pickup cap is checked and returns *before*
the spawn accumulator is touched. -/
def spawnPickups (ppos : Vec2) (pty : ℕ) (s : EngineState) : EngineState :=
  let activeCount := (s.pickups.filter (fun p => p.active)).length
  if MAX_PICKUPS ≤ activeCount then s
  else
    let acc := s.pickupSpawnAccum + 1
    if acc < PICKUP_SPAWN_INTERVAL then { s with pickupSpawnAccum := acc }
    else
      { s with
        pickupSpawnAccum := 0,
        pickups := s.pickups ++
          [{ id := s.nextPickupId, pos := ppos, ptype := pty, active := true }],
        nextPickupId := s.nextPickupId + 1 }

/-! ### Movement and clamping (engine.cpp) -/

/-- `GameEngine::clampPositions`, body of the per-boid loop: four independent
edge tests, each clamping that axis's position and negating-and-halving that
axis's velocity. -/
def clampBoid (b : Boid) : Boid :=
  let b := if b.pos.x < 0 then
    { b with pos := ⟨0, b.pos.y⟩, vel := ⟨b.vel.x * (-(1/2)), b.vel.y⟩ } else b
  let b := if b.pos.x > MAP_WIDTH then
    { b with pos := ⟨MAP_WIDTH, b.pos.y⟩, vel := ⟨b.vel.x * (-(1/2)), b.vel.y⟩ } else b
  let b := if b.pos.y < 0 then
    { b with pos := ⟨b.pos.x, 0⟩, vel := ⟨b.vel.x, b.vel.y * (-(1/2))⟩ } else b
  let b := if b.pos.y > MAP_HEIGHT then
    { b with pos := ⟨b.pos.x, MAP_HEIGHT⟩, vel := ⟨b.vel.x, b.vel.y * (-(1/2))⟩ } else b
  b

def clampPositions (s : EngineState) : EngineState :=
  { s with boids := s.boids.map clampBoid }

/-- `GameEngine::applyBoidRules`, abstracted: the steering arithmetic uses
floating-point square roots, so the new velocity and position of each boid are
supplied by an oracle `mv` (indexed by the boid's position in the collection).
Faithful to the source in everything the claims below depend on: a boid whose
owner is missing is skipped unchanged, and the step writes only `vel` and
`pos` — it never changes ids or ownership and never adds or removes boids. -/
def applyBoidRules (mv : ℕ → Vec2 × Vec2) (s : EngineState) : EngineState :=
  { s with boids := s.boids.enum.map (fun ib =>
      match findPlayer s.players ib.2.playerId with
      | none => ib.2
      | some _ => { ib.2 with vel := (mv ib.1).1, pos := (mv ib.1).2 }) }

/-- `GameEngine::buildQuadTree`. -/
def buildQuadTree (boids : List Boid) : QuadTree :=
  buildTree ⟨0, 0, MAP_WIDTH, MAP_HEIGHT⟩
    (boids.enum.map (fun ib => ⟨ib.1, ib.2.pos.x, ib.2.pos.y⟩))

/-! ### Resource collection (engine.cpp, GameEngine::collectResources) -/

/-- The per-player mutation applied when a resource of type `rty` and value
`value` is consumed (score increment plus the mutation-stat boost). -/
def applyResourceGain (value : ℤ) (rty : ℕ) (p : Player) : Player :=
  let p := { p with score := p.score + value }
  let boost : ℚ := (2/100) * (value : ℚ)
  match rty with
  | 0 => { p with mutations := { p.mutations with speed := p.mutations.speed + boost } }
  | 1 => { p with mutations := { p.mutations with cohesion := p.mutations.cohesion + boost } }
  | 2 => { p with mutations := { p.mutations with aggression := p.mutations.aggression + boost } }
  | 3 => { p with mutations := { p.mutations with collectRange := p.mutations.collectRange + boost } }
  | _ => p

/-- Inner candidate loop of `collectResources`: the first boid (in query-result
order) whose owner exists and whose squared distance beats the owner's exact
collect range consumes the resource, then the loop breaks. -/
def consumeResource (ri : ℕ) (res : Resource) : EngineState → List QTEntry → EngineState
  | st, [] => st
  | st, ne :: rest =>
    match st.boids[ne.boidIndex]? with
    | none => consumeResource ri res st rest
    | some b =>
      match findPlayer st.players b.playerId with
      | none => consumeResource ri res st rest
      | some player =>
        let collectRange := BOID_BASE_COLLECT_RANGE * player.mutations.collectRange
        if (Vec2.sub b.pos res.pos).lengthSq < collectRange * collectRange then
          let newScore := player.score + res.value
          let st1 := { st with
            resources := st.resources.set ri { res with active := false },
            players := updatePlayer st.players player.id (applyResourceGain res.value res.rtype) }
          let boidCount := (st1.boids.filter (fun bb => bb.playerId == player.id)).length
          if boidCount < MAX_BOIDS_PER_PLAYER ∧ newScore % 3 = 0 then
            { st1 with
              boids := st1.boids ++
                [{ id := st1.nextBoidId, playerId := player.id, pos := b.pos, vel := ⟨0, 0⟩ }],
              nextBoidId := st1.nextBoidId + 1 }
          else st1
        else consumeResource ri res st rest

/-- The query rectangle used for a resource: fixed half-width
`BOID_BASE_COLLECT_RANGE * 3` (the source comment reads "max possible"). -/
def resourceQueryRect (res : Resource) : Rect :=
  let maxRange := BOID_BASE_COLLECT_RANGE * 3
  ⟨res.pos.x - maxRange, res.pos.y - maxRange, maxRange * 2, maxRange * 2⟩

def collectResourceStep (t : QuadTree) (st : EngineState) (ri : ℕ) : EngineState :=
  match st.resources[ri]? with
  | none => st
  | some res =>
    if ¬ res.active then st
    else consumeResource ri res st (t.query (resourceQueryRect res))

def collectResources (t : QuadTree) (s : EngineState) : EngineState :=
  let s1 := (List.range s.resources.length).foldl (collectResourceStep t) s
  { s1 with resources := s1.resources.filter (fun r => r.active) }

/-! ### Pickup collection (engine.cpp, GameEngine::collectPickups) -/

/-- MASS_SPAWN (type 1): gain up to 5 boids, capped by the per-player max. -/
def massSpawn (jitter : ℕ → Vec2) (player : Player) (bpos : Vec2)
    (st : EngineState) : EngineState :=
  let boidCount := (st.boids.filter (fun bb => bb.playerId == player.id)).length
  let toSpawn := min 5 (MAX_BOIDS_PER_PLAYER - boidCount)
  if 0 < toSpawn then
    { st with
      boids := st.boids ++ (List.range toSpawn).map (fun i =>
        { id := st.nextBoidId + i, playerId := player.id,
          pos := ⟨bpos.x + (jitter i).x, bpos.y + (jitter i).y⟩, vel := ⟨0, 0⟩ }),
      nextBoidId := st.nextBoidId + toSpawn }
  else st

/-- Back-to-front MINE scan: removes the first `k` boids owned by `pid` in
reverse storage order. -/
def removeFirstOwned : List Boid → ℕ → ℕ → List Boid
  | [], _, _ => []
  | b :: rest, pid, k =>
    if k = 0 then b :: rest
    else if b.playerId == pid then removeFirstOwned rest pid (k - 1)
    else b :: removeFirstOwned rest pid k

/-- MINE (type 7): kills up to `MINE_KILL_COUNT` of the consuming player's
boids, iterating from the newest-stored backward. -/
def mineKill (boids : List Boid) (pid : ℕ) : List Boid :=
  (removeFirstOwned boids.reverse pid MINE_KILL_COUNT).reverse

/-- Shorthand for mutating one player record through its map iterator. -/
def setPlayerField (st : EngineState) (pid : ℕ) (f : Player → Player) : EngineState :=
  { st with players := updatePlayer st.players pid f }

/-- SCATTER_BOMB (type 5): overwrite every owned boid's velocity to point
directly away from the pickup at `SCATTER_FORCE` magnitude. -/
def scatterBoids (normO : Vec2 → Vec2) (ppos : Vec2) (pid : ℕ)
    (boids : List Boid) : List Boid :=
  boids.map (fun bb =>
    if bb.playerId == pid then
      let dir := Vec2.sub bb.pos ppos
      let dirN : Vec2 := if dir.lengthSq < (1/100) * (1/100) then ⟨1, 0⟩ else normO dir
      { bb with vel := dirN.smul SCATTER_FORCE }
    else bb)

/-- The effect switch in `collectPickups`.  SCATTER_BOMB's unit direction uses
a floating square root, supplied by the oracle `normO` in the non-degenerate
branch; everything else is exact. -/
def pickupEffect (jitter : ℕ → Vec2) (normO : Vec2 → Vec2) (pickup : Pickup)
    (b : Boid) (player : Player) (st : EngineState) : EngineState :=
  match pickup.ptype with
  | 0 => setPlayerField st player.id (fun p => { p with boostFuel := 1 })
  | 1 => massSpawn jitter player b.pos st
  | 2 => setPlayerField st player.id (fun p => { p with shieldTicks := SHIELD_DURATION })
  | 3 => setPlayerField st player.id (fun p => { p with speedBurstTicks := SPEED_BURST_DURATION })
  | 4 => setPlayerField st player.id (fun p => { p with slowTicks := SLOW_DURATION })
  | 5 => { st with boids := scatterBoids normO pickup.pos player.id st.boids }
  | 6 => setPlayerField st player.id (fun p => { p with boostFuel := 0, boosting := false })
  | 7 => { st with boids := mineKill st.boids player.id }
  | _ => st

/-- Inner candidate loop of `collectPickups`: first candidate within the
collect radius whose owner exists consumes the pickup, then the loop breaks. -/
def consumePickup (jitter : ℕ → Vec2) (normO : Vec2 → Vec2) (pi : ℕ)
    (pickup : Pickup) : EngineState → List QTEntry → EngineState
  | st, [] => st
  | st, ne :: rest =>
    match st.boids[ne.boidIndex]? with
    | none => consumePickup jitter normO pi pickup st rest
    | some b =>
      if ¬ ((Vec2.sub b.pos pickup.pos).lengthSq <
          PICKUP_COLLECT_RADIUS * PICKUP_COLLECT_RADIUS) then
        consumePickup jitter normO pi pickup st rest
      else
        match findPlayer st.players b.playerId with
        | none => consumePickup jitter normO pi pickup st rest
        | some player =>
          let st1 := { st with
            pickups := st.pickups.set pi { pickup with active := false } }
          pickupEffect jitter normO pickup b player st1

def pickupQueryRect (pickup : Pickup) : Rect :=
  ⟨pickup.pos.x - PICKUP_COLLECT_RADIUS, pickup.pos.y - PICKUP_COLLECT_RADIUS,
   PICKUP_COLLECT_RADIUS * 2, PICKUP_COLLECT_RADIUS * 2⟩

def collectPickupStep (jitter : ℕ → Vec2) (normO : Vec2 → Vec2) (t : QuadTree)
    (st : EngineState) (pi : ℕ) : EngineState :=
  match st.pickups[pi]? with
  | none => st
  | some pickup =>
    if ¬ pickup.active then st
    else consumePickup jitter normO pi pickup st (t.query (pickupQueryRect pickup))

def collectPickups (jitter : ℕ → Vec2) (normO : Vec2 → Vec2) (t : QuadTree)
    (s : EngineState) : EngineState :=
  let s1 := (List.range s.pickups.length).foldl (collectPickupStep jitter normO t) s
  { s1 with pickups := s1.pickups.filter (fun p => p.active) }

/-! ### Combat (engine.cpp, GameEngine::handleCombat) -/

def shieldActive (players : List Player) (pid : ℕ) : Bool :=
  match findPlayer players pid with
  | some p => decide (0 < p.shieldTicks)
  | none => false

/-- The per-player live boid counts precomputed at the top of the phase. -/
def initialCounts (boids : List Boid) : ℕ → ℤ :=
  fun pid => ((boids.filter (fun b => b.playerId == pid)).length : ℤ)

def decCount (counts : ℕ → ℤ) (pid : ℕ) : ℕ → ℤ :=
  fun q => if q = pid then counts q - 1 else counts q

/-- Inner scan for one boid `bi` at index `i`: walks the query result,
comparing *current* counts, marking the strictly smaller unshielded side and
breaking when the scanned boid itself is marked. -/
def combatScan (players : List Player) (boids : List Boid) (i : ℕ) (bi : Boid) :
    List QTEntry → List ℕ × (ℕ → ℤ) → List ℕ × (ℕ → ℤ)
  | [], acc => acc
  | ne :: rest, (toRemove, counts) =>
    if ne.boidIndex = i then combatScan players boids i bi rest (toRemove, counts)
    else
      match boids[ne.boidIndex]? with
      | none => combatScan players boids i bi rest (toRemove, counts)
      | some other =>
        if other.playerId == bi.playerId then
          combatScan players boids i bi rest (toRemove, counts)
        else if (Vec2.sub bi.pos other.pos).lengthSq <
            COMBAT_ABSORB_RADIUS * COMBAT_ABSORB_RADIUS then
          if counts bi.playerId < counts other.playerId ∧
              shieldActive players bi.playerId = false then
            (toRemove ++ [i], decCount counts bi.playerId)
          else if counts other.playerId < counts bi.playerId ∧
              shieldActive players other.playerId = false then
            combatScan players boids i bi rest
              (toRemove ++ [ne.boidIndex], decCount counts other.playerId)
          else combatScan players boids i bi rest (toRemove, counts)
        else combatScan players boids i bi rest (toRemove, counts)

def combatRect (b : Boid) : Rect :=
  ⟨b.pos.x - COMBAT_ABSORB_RADIUS, b.pos.y - COMBAT_ABSORB_RADIUS,
   COMBAT_ABSORB_RADIUS * 2, COMBAT_ABSORB_RADIUS * 2⟩

def combatMarks (t : QuadTree) (players : List Player) (boids : List Boid) :
    List ℕ × (ℕ → ℤ) :=
  (List.range boids.length).foldl (fun acc i =>
      match boids[i]? with
      | some bi => combatScan players boids i bi (t.query (combatRect bi)) acc
      | none => acc)
    ([], initialCounts boids)

/-- The final removal loop: `idx < boids_.size()` guards each erase. -/
def eraseIdxSafe (boids : List Boid) (idx : ℕ) : List Boid :=
  if idx < boids.length then boids.eraseIdx idx else boids

/-- Sort ascending, deduplicate, then erase from back to front. -/
def removeMarked (boids : List Boid) (marks : List ℕ) : List Boid :=
  ((List.insertionSort (· ≤ ·) marks).dedup).reverse.foldl eraseIdxSafe boids

def handleCombat (t : QuadTree) (s : EngineState) : EngineState :=
  { s with boids := removeMarked s.boids (combatMarks t s.players s.boids).1 }

/-! ### Liveness check and tick composition (engine.cpp, GameEngine::tick) -/

def livenessCheck (s : EngineState) : EngineState :=
  { s with players := s.players.map (fun p =>
      let count := (s.boids.filter (fun b => b.playerId == p.id)).length
      if count = 0 ∧ p.alive then { p with alive := false } else p) }

def resourceSpawnLoop (rpos : ℕ → Vec2) (rval : ℕ → ℤ) (rty : ℕ → ℕ) :
    ℕ → EngineState → EngineState
  | 0, s => s
  | k + 1, s =>
    let s1 := spawnResources (rpos k) (rval k) (rty k) s
    resourceSpawnLoop rpos rval rty k
      { s1 with resourceSpawnAccum := s1.resourceSpawnAccum - 1 }

/-- Step 2 of `tick()`: the fractional accumulator advances by the spawn rate
and the while loop runs once per unit crossed. -/
def tickResourceSpawns (rpos : ℕ → Vec2) (rval : ℕ → ℤ) (rty : ℕ → ℕ)
    (s : EngineState) : EngineState :=
  let acc := s.resourceSpawnAccum + RESOURCE_SPAWN_RATE
  resourceSpawnLoop rpos rval rty (⌊acc⌋).toNat { s with resourceSpawnAccum := acc }

/-- All values drawn from the RNG (and the floating-point steering results)
within one `tick()`, supplied as oracles. -/
structure TickOracle where
  mv : ℕ → Vec2 × Vec2
  rpos : ℕ → Vec2
  rval : ℕ → ℤ
  rty : ℕ → ℕ
  ppos : Vec2
  pty : ℕ
  jitter : ℕ → Vec2
  normO : Vec2 → Vec2

/-- `GameEngine::tick`.  The step-5 quadtree is consumed only by the
oracle-abstracted steering, so it is not materialised; the step-7 rebuild `t`
is the index used by the resource, pickup and combat phases — and, as the
source does, those phases keep reading `t` even after they mutate the boid
collection. -/
def tick (o : TickOracle) (s : EngineState) : EngineState :=
  let s0 := boostFuelPhase s
  let s1 := tickPlayerEffects s0
  let s2 := tickResourceSpawns o.rpos o.rval o.rty s1
  let s3 := spawnPickups o.ppos o.pty s2
  let s4 := applyBoidRules o.mv s3
  let s5 := clampPositions s4
  let t := buildQuadTree s5.boids
  let s6 := collectResources t s5
  let s7 := collectPickups o.jitter o.normO t s6
  let s8 := handleCombat t s7
  livenessCheck s8

/-- `GameEngine::GameEngine()`: empty world except for the pre-spawned
resources (the constructor resets the accumulator after each). -/
def initialState (rpos : ℕ → Vec2) (rval : ℕ → ℤ) (rty : ℕ → ℕ) : EngineState :=
  let base : EngineState :=
    { players := [], boids := [], resources := [], pickups := [],
      nextPlayerId := 1, nextBoidId := 1, nextResourceId := 1, nextPickupId := 1,
      resourceSpawnAccum := 0, pickupSpawnAccum := 0 }
  (List.range (MAX_RESOURCES / 2)).foldl
    (fun s i => { spawnResources (rpos i) (rval i) (rty i) s with resourceSpawnAccum := 0 })
    base

/-! ### C7: bounds clamp -/

/-- C7: after the bounds-clamp step every boid's position lies within
`[0, mapWidth] × [0, mapHeight]`; on each axis that crossed an edge the
position is set to the edge value and that axis's velocity is negated and
halved; on each axis that did not cross, position and velocity are
unchanged. -/
theorem clampPositions_spec (s : EngineState) :
    (clampPositions s).boids = s.boids.map clampBoid ∧
    ∀ b : Boid,
      (0 ≤ (clampBoid b).pos.x ∧ (clampBoid b).pos.x ≤ MAP_WIDTH ∧
        0 ≤ (clampBoid b).pos.y ∧ (clampBoid b).pos.y ≤ MAP_HEIGHT) ∧
      (b.pos.x < 0 → (clampBoid b).pos.x = 0 ∧ (clampBoid b).vel.x = -(b.vel.x / 2)) ∧
      (b.pos.x > MAP_WIDTH →
        (clampBoid b).pos.x = MAP_WIDTH ∧ (clampBoid b).vel.x = -(b.vel.x / 2)) ∧
      (0 ≤ b.pos.x → b.pos.x ≤ MAP_WIDTH →
        (clampBoid b).pos.x = b.pos.x ∧ (clampBoid b).vel.x = b.vel.x) ∧
      (b.pos.y < 0 → (clampBoid b).pos.y = 0 ∧ (clampBoid b).vel.y = -(b.vel.y / 2)) ∧
      (b.pos.y > MAP_HEIGHT →
        (clampBoid b).pos.y = MAP_HEIGHT ∧ (clampBoid b).vel.y = -(b.vel.y / 2)) ∧
      (0 ≤ b.pos.y → b.pos.y ≤ MAP_HEIGHT →
        (clampBoid b).pos.y = b.pos.y ∧ (clampBoid b).vel.y = b.vel.y) := by
  refine ⟨rfl, fun b => ?_⟩
  obtain ⟨bid, pid, ⟨px, py⟩, ⟨vx, vy⟩⟩ := b
  simp only [clampBoid, MAP_WIDTH, MAP_HEIGHT]
  split_ifs <;>
    dsimp only at * <;>
    refine ⟨⟨by linarith, by linarith, by linarith, by linarith⟩,
      fun ha => ⟨by linarith, by linarith⟩,
      fun ha => ⟨by linarith, by linarith⟩,
      fun ha hb => ⟨by linarith, by linarith⟩,
      fun ha => ⟨by linarith, by linarith⟩,
      fun ha => ⟨by linarith, by linarith⟩,
      fun ha hb => ⟨by linarith, by linarith⟩⟩

/-- Witness for C7 at a concrete boid that crossed the left edge only. -/
theorem clampPositions_spec_witness :
    ((-5 : ℚ) < 0 ∧ (0:ℚ) ≤ 200 ∧ (200:ℚ) ≤ MAP_HEIGHT) ∧
    (clampBoid ⟨1, 2, ⟨-5, 200⟩, ⟨3, 4⟩⟩).pos.x = 0 ∧
    (clampBoid ⟨1, 2, ⟨-5, 200⟩, ⟨3, 4⟩⟩).vel.x = -(3 / 2) ∧
    (clampBoid ⟨1, 2, ⟨-5, 200⟩, ⟨3, 4⟩⟩).pos.y = 200 ∧
    (clampBoid ⟨1, 2, ⟨-5, 200⟩, ⟨3, 4⟩⟩).vel.y = 4 := by
  have h := (clampPositions_spec
    ⟨[], [], [], [], 1, 1, 1, 1, 0, 0⟩).2 ⟨1, 2, ⟨-5, 200⟩, ⟨3, 4⟩⟩
  refine ⟨⟨by norm_num, by norm_num, by norm_num [MAP_HEIGHT]⟩, ?_, ?_, ?_, ?_⟩
  · exact (h.2.1 (by norm_num)).1
  · exact (h.2.1 (by norm_num)).2
  · exact (h.2.2.2.2.2.2 (by norm_num) (by norm_num [MAP_HEIGHT])).1
  · exact (h.2.2.2.2.2.2 (by norm_num) (by norm_num [MAP_HEIGHT])).2

/-! ### C3: pickup spawn counter -/

/-- A state with the active-pickup cap reached and the spawn counter at 5. -/
def c3State : EngineState :=
  { players := [], boids := [], resources := [],
    pickups := (List.range 20).map
      (fun i => { id := i + 1, pos := ⟨0, 0⟩, ptype := 0, active := true }),
    nextPlayerId := 1, nextBoidId := 1, nextResourceId := 1, nextPickupId := 21,
    resourceSpawnAccum := 0, pickupSpawnAccum := 5 }

/-- C3, counterexample: on a cap-blocked tick `spawnPickups` returns before
touching the counter, so the counter does *not* increment by one. -/
theorem spawnPickups_capBlocked_counter :
    c3State.pickupSpawnAccum = 5 ∧
    spawnPickups ⟨0, 0⟩ 0 c3State = c3State ∧
    ¬ ((spawnPickups ⟨0, 0⟩ 0 c3State).pickupSpawnAccum =
        c3State.pickupSpawnAccum + 1) := by
  have he : spawnPickups ⟨0, 0⟩ 0 c3State = c3State := rfl
  refine ⟨rfl, he, ?_⟩
  rw [he]
  show ¬ ((5 : ℚ) = 5 + 1)
  norm_num

/-- C3, amended: when the active-pickup count is below the cap, the counter
increments by one and resets to zero on reaching the interval (spawning a
pickup); when the cap blocks, the whole step is a no-op and in particular the
counter is unchanged; a counter below the interval stays below it. -/
theorem spawnPickups_counter_spec (ppos : Vec2) (pty : ℕ) (s : EngineState)
    (hlt : s.pickupSpawnAccum < PICKUP_SPAWN_INTERVAL) :
    (MAX_PICKUPS ≤ (s.pickups.filter (fun p => p.active)).length →
      spawnPickups ppos pty s = s) ∧
    ((s.pickups.filter (fun p => p.active)).length < MAX_PICKUPS →
      (s.pickupSpawnAccum + 1 < PICKUP_SPAWN_INTERVAL →
        (spawnPickups ppos pty s).pickupSpawnAccum = s.pickupSpawnAccum + 1 ∧
        (spawnPickups ppos pty s).pickups = s.pickups) ∧
      (PICKUP_SPAWN_INTERVAL ≤ s.pickupSpawnAccum + 1 →
        (spawnPickups ppos pty s).pickupSpawnAccum = 0 ∧
        (spawnPickups ppos pty s).pickups = s.pickups ++
          [{ id := s.nextPickupId, pos := ppos, ptype := pty, active := true }])) ∧
    (spawnPickups ppos pty s).pickupSpawnAccum < PICKUP_SPAWN_INTERVAL := by
  by_cases h1 : MAX_PICKUPS ≤ (s.pickups.filter (fun p => p.active)).length
  · have he : spawnPickups ppos pty s = s := by
      simp only [spawnPickups]
      rw [if_pos h1]
    rw [he]
    exact ⟨fun _ => rfl, fun hc => absurd h1 (by omega), hlt⟩
  · by_cases h2 : s.pickupSpawnAccum + 1 < PICKUP_SPAWN_INTERVAL
    · have he : spawnPickups ppos pty s =
          { s with pickupSpawnAccum := s.pickupSpawnAccum + 1 } := by
        simp only [spawnPickups]
        rw [if_neg h1, if_pos h2]
      rw [he]
      exact ⟨fun hc => absurd hc h1, fun _ => ⟨fun _ => ⟨rfl, rfl⟩,
        fun hge => absurd h2 (not_lt.mpr hge)⟩, h2⟩
    · have he : spawnPickups ppos pty s =
          { s with pickupSpawnAccum := 0,
                   pickups := s.pickups ++
                     [{ id := s.nextPickupId, pos := ppos, ptype := pty, active := true }],
                   nextPickupId := s.nextPickupId + 1 } := by
        simp only [spawnPickups]
        rw [if_neg h1, if_neg h2]
      rw [he]
      refine ⟨fun hc => absurd hc h1, fun _ => ⟨fun hlt2 => absurd hlt2 h2,
        fun _ => ⟨rfl, rfl⟩⟩, ?_⟩
      show (0 : ℚ) < PICKUP_SPAWN_INTERVAL
      norm_num [PICKUP_SPAWN_INTERVAL]

/-- Witness for C3's amended theorem at a below-cap state reaching the
interval. -/
theorem spawnPickups_counter_spec_witness :
    ((59 : ℚ) < PICKUP_SPAWN_INTERVAL) ∧
    (spawnPickups ⟨7, 8⟩ 3
      { players := [], boids := [], resources := [], pickups := [],
        nextPlayerId := 1, nextBoidId := 1, nextResourceId := 1, nextPickupId := 1,
        resourceSpawnAccum := 0, pickupSpawnAccum := 59 }).pickupSpawnAccum = 0 := by
  refine ⟨by norm_num [PICKUP_SPAWN_INTERVAL], ?_⟩
  have h := spawnPickups_counter_spec ⟨7, 8⟩ 3
    { players := [], boids := [], resources := [], pickups := [],
      nextPlayerId := 1, nextBoidId := 1, nextResourceId := 1, nextPickupId := 1,
      resourceSpawnAccum := 0, pickupSpawnAccum := 59 }
    (by norm_num [PICKUP_SPAWN_INTERVAL])
  exact (h.2.1 (by decide) |>.2 (by norm_num [PICKUP_SPAWN_INTERVAL])).1

/-! ### C6: boost fuel invariant -/

/-- Every operation in the engine that writes `boostFuel` or `boosting` of an
existing player record: the tick's fuel update, `setPlayerBoost`, the
BOOST_REFILL pickup (type 0) and the DRAIN_TRAP pickup (type 6). -/
inductive FuelEvent where
  | tickFuel
  | setBoost (active : Bool)
  | boostRefill
  | drainTrap

def applyFuelEvent (p : Player) : FuelEvent → Player
  | .tickFuel => updateBoostFuel p
  | .setBoost a => { p with boosting := a }
  | .boostRefill => { p with boostFuel := 1 }
  | .drainTrap => { p with boostFuel := 0, boosting := false }

/-- Player states reachable from a fresh record through any sequence of
fuel-affecting operations. -/
inductive FuelReachable : Player → Prop where
  | fresh (pid : ℕ) : FuelReachable (Player.fresh pid)
  | step (p : Player) (e : FuelEvent) : FuelReachable p → FuelReachable (applyFuelEvent p e)

/-- C6: boost fuel stays within `[0, 1]` under any sequence of API calls,
fuel ticks and fuel-affecting pickup effects. -/
theorem boostFuel_bounds (p : Player) (h : FuelReachable p) :
    0 ≤ p.boostFuel ∧ p.boostFuel ≤ 1 := by
  induction h with
  | fresh pid => exact ⟨by norm_num [Player.fresh], by norm_num [Player.fresh]⟩
  | step q e ih hq =>
    cases e with
    | tickFuel =>
      obtain ⟨h0, h1⟩ := hq
      simp only [applyFuelEvent, updateBoostFuel, BOOST_DRAIN_RATE,
        BOOST_RECHARGE_RATE, BOOST_MIN_FUEL]
      split_ifs <;> (try dsimp only at *) <;> exact ⟨by linarith, by linarith⟩
    | setBoost a => exact hq
    | boostRefill =>
      exact ⟨by simp [applyFuelEvent], by simp [applyFuelEvent]⟩
    | drainTrap =>
      exact ⟨by simp [applyFuelEvent], by simp [applyFuelEvent]⟩

/-- Witness for C6: a fresh player that toggles boost on and takes one fuel
tick. -/
theorem boostFuel_bounds_witness :
    0 ≤ (applyFuelEvent (applyFuelEvent (Player.fresh 1) (.setBoost true))
        .tickFuel).boostFuel ∧
    (applyFuelEvent (applyFuelEvent (Player.fresh 1) (.setBoost true))
        .tickFuel).boostFuel ≤ 1 :=
  boostFuel_bounds _ (.step _ _ (.step _ _ (.fresh 1)))

/-! ### C9: unknown-id operations -/

theorem updatePlayer_not_found (players : List Player) (pid : ℕ)
    (f : Player → Player) (h : ∀ p ∈ players, p.id ≠ pid) :
    updatePlayer players pid f = players := by
  unfold updatePlayer
  induction players with
  | nil => rfl
  | cons p rest ih =>
    simp only [List.map_cons]
    rw [if_neg (by simp [h p (List.mem_cons_self p rest)]),
      ih (fun q hq => h q (List.mem_cons_of_mem p hq))]

/-- C9: for an id absent from the player collection — with every boid's owner
present, the engine's ownership invariant — `removePlayer`,
`setPlayerCursor` and `setPlayerBoost` leave the state unchanged. -/
theorem unknownId_noop (s : EngineState) (pid : ℕ)
    (hid : ∀ p ∈ s.players, p.id ≠ pid)
    (hown : ∀ b ∈ s.boids, ∃ p ∈ s.players, p.id = b.playerId) :
    removePlayer pid s = s ∧
    (∀ x y : ℚ, setPlayerCursor pid x y s = s) ∧
    (∀ a : Bool, setPlayerBoost pid a s = s) := by
  have hplayers : s.players.filter (fun p => !(p.id == pid)) = s.players := by
    apply List.filter_eq_self.mpr
    intro p hp
    simp [hid p hp]
  have hboids : s.boids.filter (fun b => !(b.playerId == pid)) = s.boids := by
    apply List.filter_eq_self.mpr
    intro b hb
    obtain ⟨p, hp, hpe⟩ := hown b hb
    simp [hpe ▸ hid p hp]
  refine ⟨?_, fun x y => ?_, fun a => ?_⟩
  · show { s with players := _, boids := _ } = s
    rw [hplayers, hboids]
  · show { s with players := updatePlayer s.players pid _ } = s
    rw [updatePlayer_not_found s.players pid _ hid]
  · show { s with players := updatePlayer s.players pid _ } = s
    rw [updatePlayer_not_found s.players pid _ hid]

/-- Witness for C9 at a concrete one-player state and an absent id. -/
theorem unknownId_noop_witness :
    removePlayer 42
      { players := [Player.fresh 1], boids := [⟨1, 1, ⟨0, 0⟩, ⟨0, 0⟩⟩],
        resources := [], pickups := [], nextPlayerId := 2, nextBoidId := 2,
        nextResourceId := 1, nextPickupId := 1,
        resourceSpawnAccum := 0, pickupSpawnAccum := 0 } =
      { players := [Player.fresh 1], boids := [⟨1, 1, ⟨0, 0⟩, ⟨0, 0⟩⟩],
        resources := [], pickups := [], nextPlayerId := 2, nextBoidId := 2,
        nextResourceId := 1, nextPickupId := 1,
        resourceSpawnAccum := 0, pickupSpawnAccum := 0 } := by
  refine (unknownId_noop _ 42 ?_ ?_).1
  · intro p hp
    simp only [List.mem_singleton] at hp
    subst hp
    simp [Player.fresh]
  · intro b hb
    simp only [List.mem_singleton] at hb
    subst hb
    exact ⟨Player.fresh 1, List.mem_singleton.mpr rfl, rfl⟩

/-! ### C5: shield protection in combat -/

/-- A combat mark is acceptable when it designates an in-range boid whose
owner has no active shield. -/
def MarkOk (players : List Player) (boids : List Boid) (k : ℕ) : Prop :=
  ∃ b, boids[k]? = some b ∧ shieldActive players b.playerId = false

theorem combatScan_marks (players : List Player) (boids : List Boid) (i : ℕ)
    (bi : Boid) (hbi : boids[i]? = some bi) (l : List QTEntry) :
    ∀ (toRemove : List ℕ) (counts : ℕ → ℤ),
      (∀ k ∈ toRemove, MarkOk players boids k) →
      ∀ k ∈ (combatScan players boids i bi l (toRemove, counts)).1,
        MarkOk players boids k := by
  induction l with
  | nil => intro toRemove counts hall k hk; exact hall k hk
  | cons ne rest ih =>
    intro toRemove counts hall
    simp only [combatScan]
    split
    · exact ih toRemove counts hall
    · next h1 =>
      split
      · exact ih toRemove counts hall
      · next other hgo =>
        split
        · exact ih toRemove counts hall
        · split
          · split
            · next hA =>
              intro k hk
              simp only [List.mem_append, List.mem_singleton] at hk
              rcases hk with hk | hk
              · exact hall k hk
              · subst hk; exact ⟨bi, hbi, hA.2⟩
            · split
              · next hB =>
                refine ih _ _ ?_
                intro k hk
                simp only [List.mem_append, List.mem_singleton] at hk
                rcases hk with hk | hk
                · exact hall k hk
                · subst hk; exact ⟨other, hgo, hB.2⟩
              · exact ih toRemove counts hall
          · exact ih toRemove counts hall

theorem combatMarks_ok (t : QuadTree) (players : List Player) (boids : List Boid) :
    ∀ k ∈ (combatMarks t players boids).1, MarkOk players boids k := by
  unfold combatMarks
  have key : ∀ (idxs : List ℕ) (acc : List ℕ × (ℕ → ℤ)),
      (∀ k ∈ acc.1, MarkOk players boids k) →
      ∀ k ∈ (idxs.foldl (fun acc i =>
          match boids[i]? with
          | some bi => combatScan players boids i bi (t.query (combatRect bi)) acc
          | none => acc) acc).1, MarkOk players boids k := by
    intro idxs
    induction idxs with
    | nil => intro acc hacc k hk; exact hacc k hk
    | cons j rest ih =>
      intro acc hacc
      rw [List.foldl_cons]
      cases hgo : boids[j]? with
      | none => exact ih acc hacc
      | some bj =>
        exact ih _ (combatScan_marks players boids j bj hgo _ acc.1 acc.2 hacc)
  exact key (List.range boids.length) ([], initialCounts boids) (by simp)

theorem countP_eraseIdxSafe (boids : List Boid) (k : ℕ) (P : Boid → Bool)
    (h : ∀ b, boids[k]? = some b → P b = false) :
    (eraseIdxSafe boids k).countP P = boids.countP P := by
  unfold eraseIdxSafe
  split
  · next hk =>
    have hb : boids[k]? = some boids[k] := List.getElem?_eq_getElem hk
    rw [List.eraseIdx_eq_take_drop_succ]
    conv_rhs => rw [← List.take_append_drop k boids]
    rw [List.countP_append, List.countP_append,
      List.drop_eq_getElem_cons hk, List.countP_cons, h _ hb]
    simp
  · rfl

theorem getElem?_eraseIdxSafe_lt (boids : List Boid) (k j : ℕ) (hjk : j < k) :
    (eraseIdxSafe boids k)[j]? = boids[j]? := by
  unfold eraseIdxSafe
  split
  · next hk =>
    rw [List.eraseIdx_eq_take_drop_succ, List.getElem?_append,
      List.length_take, List.getElem?_take]
    rw [if_pos hjk, if_pos (by omega)]
  · rfl

theorem countP_removeFold (P : Boid → Bool) :
    ∀ (l : List ℕ) (boids : List Boid),
      l.Sorted (· > ·) →
      (∀ k ∈ l, ∀ b, boids[k]? = some b → P b = false) →
      (l.foldl eraseIdxSafe boids).countP P = boids.countP P := by
  intro l
  induction l with
  | nil => intro boids _ _; rfl
  | cons k rest ih =>
    intro boids hsort h
    rw [List.foldl_cons]
    have hklt : ∀ j ∈ rest, j < k := fun j hj => (List.sorted_cons.mp hsort).1 j hj
    have htrans : ∀ j ∈ rest, ∀ b, (eraseIdxSafe boids k)[j]? = some b → P b = false := by
      intro j hj b hjb
      apply h j (List.mem_cons_of_mem _ hj) b
      rwa [getElem?_eraseIdxSafe_lt boids k j (hklt j hj)] at hjb
    rw [ih (eraseIdxSafe boids k) (List.sorted_cons.mp hsort).2 htrans,
      countP_eraseIdxSafe boids k P (h k (List.mem_cons_self k rest))]

theorem countP_removeMarked (boids : List Boid) (marks : List ℕ) (P : Boid → Bool)
    (h : ∀ k ∈ marks, ∀ b, boids[k]? = some b → P b = false) :
    (removeMarked boids marks).countP P = boids.countP P := by
  unfold removeMarked
  apply countP_removeFold
  · have h1 : (List.insertionSort (· ≤ ·) marks).Sorted (· ≤ ·) :=
      List.sorted_insertionSort _ _
    have h2 : ((List.insertionSort (· ≤ ·) marks).dedup).Sorted (· ≤ ·) :=
      h1.sublist (List.dedup_sublist _)
    have h3 : ((List.insertionSort (· ≤ ·) marks).dedup).Sorted (· < ·) :=
      List.Sorted.lt_of_le h2 (List.nodup_dedup _)
    show List.Pairwise _ _
    rw [List.pairwise_reverse]
    exact h3
  · intro k hk
    apply h
    have hk1 := List.mem_reverse.mp hk
    have hk2 := List.mem_dedup.mp hk1
    exact (List.perm_insertionSort _ marks).mem_iff.mp hk2

/-- C5: (a) a boid whose owner holds an active shield at the start of combat
resolution is never removed by it — the count of that player's boids is
unchanged, whatever spatial index combat reads; (b) an adjacent enemy pair
whose owners' current counts are equal at comparison time marks neither boid
and leaves the counts untouched. -/
theorem combat_shield_spec :
    (∀ (t : QuadTree) (s : EngineState) (p : Player),
      findPlayer s.players p.id = some p → 0 < p.shieldTicks →
      (handleCombat t s).boids.countP (fun b => b.playerId == p.id) =
        s.boids.countP (fun b => b.playerId == p.id)) ∧
    (∀ (players : List Player) (boids : List Boid) (i : ℕ) (bi : Boid)
      (ne : QTEntry) (rest : List QTEntry) (toRemove : List ℕ)
      (counts : ℕ → ℤ) (other : Boid),
      ¬ ne.boidIndex = i → boids[ne.boidIndex]? = some other →
      (other.playerId == bi.playerId) = false →
      (Vec2.sub bi.pos other.pos).lengthSq <
        COMBAT_ABSORB_RADIUS * COMBAT_ABSORB_RADIUS →
      counts bi.playerId = counts other.playerId →
      combatScan players boids i bi (ne :: rest) (toRemove, counts) =
        combatScan players boids i bi rest (toRemove, counts)) := by
  constructor
  · intro t s p hfind hshield
    show (removeMarked s.boids (combatMarks t s.players s.boids).1).countP _ = _
    apply countP_removeMarked
    intro k hk b hkb
    obtain ⟨b', hb', hsh⟩ := combatMarks_ok t s.players s.boids k hk
    have hbb : b' = b := Option.some.inj (hb'.symm.trans hkb)
    subst hbb
    show (b'.playerId == p.id) = false
    cases hbool : (b'.playerId == p.id) with
    | false => rfl
    | true =>
      have hpe : b'.playerId = p.id := eq_of_beq hbool
      rw [hpe] at hsh
      simp only [shieldActive, hfind] at hsh
      simp at hsh
      exact absurd hshield (by omega)
  · intro players boids i bi ne rest toRemove counts other hne hgo hteam hdist hcount
    simp only [combatScan]
    rw [if_neg hne, hgo]
    simp only [hteam, Bool.false_eq_true, if_false]
    rw [if_pos hdist,
      if_neg (by rintro ⟨h1, -⟩; rw [hcount] at h1; exact lt_irrefl _ h1),
      if_neg (by rintro ⟨h1, -⟩; rw [hcount] at h1; exact lt_irrefl _ h1)]

def c5PlayerA : Player := { Player.fresh 1 with shieldTicks := 5 }

/-- A 1-boid shielded player (id 1) adjacent to a 10-boid unshielded player
(id 2). -/
def c5State : EngineState :=
  { players := [c5PlayerA, Player.fresh 2],
    boids := [⟨1, 1, ⟨100, 100⟩, ⟨0, 0⟩⟩,
      ⟨2, 2, ⟨105, 100⟩, ⟨0, 0⟩⟩, ⟨3, 2, ⟨106, 100⟩, ⟨0, 0⟩⟩,
      ⟨4, 2, ⟨107, 100⟩, ⟨0, 0⟩⟩, ⟨5, 2, ⟨108, 100⟩, ⟨0, 0⟩⟩,
      ⟨6, 2, ⟨109, 100⟩, ⟨0, 0⟩⟩, ⟨7, 2, ⟨110, 100⟩, ⟨0, 0⟩⟩,
      ⟨8, 2, ⟨111, 100⟩, ⟨0, 0⟩⟩, ⟨9, 2, ⟨112, 100⟩, ⟨0, 0⟩⟩,
      ⟨10, 2, ⟨113, 100⟩, ⟨0, 0⟩⟩, ⟨11, 2, ⟨114, 100⟩, ⟨0, 0⟩⟩],
    resources := [], pickups := [], nextPlayerId := 3, nextBoidId := 12,
    nextResourceId := 1, nextPickupId := 1, resourceSpawnAccum := 0,
    pickupSpawnAccum := 0 }

/-- Witness for C5: the shielded 1-boid player of `c5State` retains its boid
through combat against the 10-boid player, and a concrete equal-count
comparison marks nothing. -/
theorem combat_shield_spec_witness :
    (findPlayer c5State.players c5PlayerA.id = some c5PlayerA ∧
      0 < c5PlayerA.shieldTicks ∧
      c5State.boids.countP (fun b => b.playerId == c5PlayerA.id) = 1 ∧
      (handleCombat (buildQuadTree c5State.boids) c5State).boids.countP
        (fun b => b.playerId == c5PlayerA.id) = 1) ∧
    combatScan [] [⟨1, 1, ⟨0, 0⟩, ⟨0, 0⟩⟩, ⟨2, 2, ⟨5, 0⟩, ⟨0, 0⟩⟩] 0
        ⟨1, 1, ⟨0, 0⟩, ⟨0, 0⟩⟩ [⟨1, 5, 0⟩]
        ([], initialCounts [⟨1, 1, ⟨0, 0⟩, ⟨0, 0⟩⟩, ⟨2, 2, ⟨5, 0⟩, ⟨0, 0⟩⟩]) =
      combatScan [] [⟨1, 1, ⟨0, 0⟩, ⟨0, 0⟩⟩, ⟨2, 2, ⟨5, 0⟩, ⟨0, 0⟩⟩] 0
        ⟨1, 1, ⟨0, 0⟩, ⟨0, 0⟩⟩ []
        ([], initialCounts [⟨1, 1, ⟨0, 0⟩, ⟨0, 0⟩⟩, ⟨2, 2, ⟨5, 0⟩, ⟨0, 0⟩⟩]) := by
  have h1 : findPlayer c5State.players c5PlayerA.id = some c5PlayerA := rfl
  have h2 : (0 : ℤ) < c5PlayerA.shieldTicks := by decide
  have h3 : c5State.boids.countP (fun b => b.playerId == c5PlayerA.id) = 1 := by decide
  refine ⟨⟨h1, h2, h3, ?_⟩, ?_⟩
  · rw [combat_shield_spec.1 (buildQuadTree c5State.boids) c5State c5PlayerA h1 h2]
    exact h3
  · refine combat_shield_spec.2 _ _ _ _ _ _ _ _ ⟨2, 2, ⟨5, 0⟩, ⟨0, 0⟩⟩
      (by decide) rfl rfl ?_ (by decide)
    show (Vec2.sub ⟨0, 0⟩ ⟨5, 0⟩).lengthSq < COMBAT_ABSORB_RADIUS * COMBAT_ABSORB_RADIUS
    norm_num [Vec2.sub, Vec2.lengthSq, COMBAT_ABSORB_RADIUS]

/-! ### C1: stale spatial-index entries after a MINE pickup -/

/-- One player owning five clustered boids, with an active MINE pickup
(type 7) sitting on the first boid. -/
def c1State : EngineState :=
  { players := [Player.fresh 1],
    boids := [⟨1, 1, ⟨1000, 1000⟩, ⟨0, 0⟩⟩, ⟨2, 1, ⟨1005, 1000⟩, ⟨0, 0⟩⟩,
      ⟨3, 1, ⟨1010, 1000⟩, ⟨0, 0⟩⟩, ⟨4, 1, ⟨1015, 1000⟩, ⟨0, 0⟩⟩,
      ⟨5, 1, ⟨1008, 1005⟩, ⟨0, 0⟩⟩],
    resources := [],
    pickups := [{ id := 1, pos := ⟨1000, 1000⟩, ptype := 7, active := true }],
    nextPlayerId := 2, nextBoidId := 6, nextResourceId := 1, nextPickupId := 2,
    resourceSpawnAccum := 0, pickupSpawnAccum := 0 }

/-- The step-7 index over `c1State`'s boids, which the resource, pickup and
combat phases all read. -/
def c1Tree : QuadTree := buildQuadTree c1State.boids

/-- The state reaching the combat phase: resource collection (no resources)
followed by pickup collection, in which the MINE is consumed and removes four
boids. -/
def c1S2 : EngineState :=
  collectPickups (fun _ => ⟨0, 0⟩) (fun v => v) c1Tree
    (collectResources c1Tree c1State)

/-- C1 fails on the code: after the MINE pickup consumed during this tick's
pickup phase removed four boids, the combat phase still queries the index
built before the removal, and the query for the surviving boid returns
entries whose `boidIndex` is out of range of the current boid collection —
the out-of-range branch the claim calls unreachable is reached (in the C++
this indexes `boids_` out of bounds). -/
theorem combat_stale_index_bug :
    c1S2.boids = [⟨1, 1, ⟨1000, 1000⟩, ⟨0, 0⟩⟩] ∧
    (∃ e ∈ c1Tree.query (combatRect ⟨1, 1, ⟨1000, 1000⟩, ⟨0, 0⟩⟩),
      c1S2.boids.length ≤ e.boidIndex ∧ c1S2.boids[e.boidIndex]? = none) := by
  have hq : c1Tree.query (combatRect ⟨1, 1, ⟨1000, 1000⟩, ⟨0, 0⟩⟩) =
      [⟨0, 1000, 1000⟩, ⟨1, 1005, 1000⟩, ⟨2, 1010, 1000⟩, ⟨3, 1015, 1000⟩,
       ⟨4, 1008, 1005⟩] := by
    norm_num [c1Tree, c1State, buildQuadTree, buildTree, clearedTree,
      QuadTree.insert, freshChildInsert, childRect, QuadTree.query,
      Rect.intersects, Rect.containsPt, combatRect, QUADTREE_MAX_OBJECTS,
      QUADTREE_MAX_LEVELS, MAP_WIDTH, MAP_HEIGHT, COMBAT_ABSORB_RADIUS,
      List.enum, List.enumFrom, List.foldl, List.filter]
  have hs2 : c1S2.boids = [⟨1, 1, ⟨1000, 1000⟩, ⟨0, 0⟩⟩] := by
    norm_num [c1S2, c1Tree, c1State, collectResources, collectResourceStep,
      collectPickups, collectPickupStep, consumePickup, pickupEffect,
      pickupQueryRect, mineKill, removeFirstOwned, findPlayer, Player.fresh,
      buildQuadTree, buildTree, clearedTree, QuadTree.insert, freshChildInsert,
      childRect, QuadTree.query, Rect.intersects, Rect.containsPt,
      Vec2.sub, Vec2.lengthSq, QUADTREE_MAX_OBJECTS, QUADTREE_MAX_LEVELS,
      MAP_WIDTH, MAP_HEIGHT, PICKUP_COLLECT_RADIUS, MINE_KILL_COUNT,
      List.enum, List.enumFrom, List.foldl, List.filter, List.range]
  refine ⟨hs2, ⟨4, 1008, 1005⟩, ?_, ?_, ?_⟩
  · rw [hq]; simp
  · rw [hs2]; norm_num
  · rw [hs2]; rfl

/-! ### C4: the fixed resource-query radius versus attainable collect ranges -/

/-- The collectRange multipliers attainable through the code's own update
rule: start at 1.0, and each collected type-3 resource of value `v ∈ [1,3]`
adds `0.02 * v` (`applyResourceGain`). -/
inductive AttainableCollectMult : ℚ → Prop where
  | base : AttainableCollectMult 1
  | step (m : ℚ) (v : ℤ) (h1 : 1 ≤ v) (h3 : v ≤ 3) :
      AttainableCollectMult m → AttainableCollectMult (m + (2/100) * (v : ℚ))

theorem attainable_of_steps (k : ℕ) :
    AttainableCollectMult (1 + (k : ℚ) * (6/100)) := by
  induction k with
  | zero => simpa using AttainableCollectMult.base
  | succ n ih =>
    have h := AttainableCollectMult.step _ 3 (by norm_num) (by norm_num) ih
    have he : 1 + (n : ℚ) * (6/100) + (2/100) * ((3 : ℤ) : ℚ)
        = 1 + ((n : ℚ) + 1) * (6/100) := by push_cast; ring
    rw [he] at h
    simpa [Nat.cast_succ] using h

theorem attainable_four : AttainableCollectMult 4 := by
  have h := attainable_of_steps 50
  norm_num at h
  exact h

/-- A player whose collectRange multiplier has grown to 4 (attainable), with
one boid 130 units from an active type-3 resource. -/
def c4Player : Player := { Player.fresh 1 with mutations := ⟨1, 1, 1, 4⟩ }

def c4Resource : Resource := { id := 1, pos := ⟨1000, 1000⟩, value := 2, rtype := 3, active := true }

def c4State : EngineState :=
  { players := [c4Player],
    boids := [⟨1, 1, ⟨1130, 1000⟩, ⟨0, 0⟩⟩],
    resources := [c4Resource], pickups := [],
    nextPlayerId := 2, nextBoidId := 2, nextResourceId := 2, nextPickupId := 1,
    resourceSpawnAccum := 0, pickupSpawnAccum := 0 }

def c4Tree : QuadTree := buildQuadTree c4State.boids

/-- C4 fails on the code: with the attainable collectRange multiplier 4 the
owner's exact collect range is 160, yet the query square's fixed half-width
is 120 (`BOID_BASE_COLLECT_RANGE * 3`, "max possible" per the source
comment), so a boid 130 units from the resource — inside its owner's exact
collect range — is not among the query's candidates, and the resource
survives the collection phase unconsumed. -/
theorem collect_radius_bug :
    AttainableCollectMult c4Player.mutations.collectRange ∧
    (Vec2.sub ⟨1130, 1000⟩ c4Resource.pos).lengthSq <
      (BOID_BASE_COLLECT_RANGE * c4Player.mutations.collectRange) *
        (BOID_BASE_COLLECT_RANGE * c4Player.mutations.collectRange) ∧
    c4Tree.query (resourceQueryRect c4Resource) = [] ∧
    (collectResources c4Tree c4State).resources = [c4Resource] := by
  refine ⟨attainable_four, ?_, ?_, ?_⟩
  · norm_num [Vec2.sub, Vec2.lengthSq, c4Resource, c4Player, Player.fresh,
      BOID_BASE_COLLECT_RANGE]
  · norm_num [c4Tree, c4State, buildQuadTree, buildTree, clearedTree,
      QuadTree.insert, freshChildInsert, childRect, QuadTree.query,
      Rect.intersects, Rect.containsPt, resourceQueryRect, c4Resource,
      QUADTREE_MAX_OBJECTS, QUADTREE_MAX_LEVELS, MAP_WIDTH, MAP_HEIGHT,
      BOID_BASE_COLLECT_RANGE, List.enum, List.enumFrom, List.foldl,
      List.filter]
  · norm_num [collectResources, collectResourceStep, consumeResource,
      c4Tree, c4State, buildQuadTree, buildTree, clearedTree,
      QuadTree.insert, freshChildInsert, childRect, QuadTree.query,
      Rect.intersects, Rect.containsPt, resourceQueryRect, c4Resource,
      c4Player, Player.fresh, findPlayer, Vec2.sub, Vec2.lengthSq,
      QUADTREE_MAX_OBJECTS, QUADTREE_MAX_LEVELS, MAP_WIDTH, MAP_HEIGHT,
      BOID_BASE_COLLECT_RANGE, List.enum, List.enumFrom, List.foldl,
      List.filter, List.range]

/-! ### C8: binary serialization (engine.cpp, GameEngine::serializeState) -/

/-- Truncation toward zero, the semantics of C++ float-to-int casts. -/
def truncQ (q : ℚ) : ℤ := if 0 ≤ q then ⌊q⌋ else -⌊-q⌋

/-- Little-endian bytes of a value narrowed to `uint16_t`. -/
def u16bytes (v : ℕ) : List ℕ := [v % 256, (v / 256) % 256]

/-- Little-endian bytes of a `uint32_t`. -/
def u32bytes (v : ℕ) : List ℕ :=
  [v % 256, (v / 256) % 256, (v / 65536) % 256, (v / 16777216) % 256]

/-- `(uint16_t)` cast of a signed value, then little-endian bytes. -/
def u16ofInt (v : ℤ) : List ℕ := u16bytes (v.emod 65536).toNat

/-- `(uint8_t)` cast of a signed value. -/
def u8byte (v : ℤ) : ℕ := (v.emod 256).toNat

def b2u8 (b : Bool) : ℕ := if b then 1 else 0

/-- `(uint16_t)std::clamp(q, 0.0f, 65535.0f)`: clamp, then truncate (equal to
the floor on the clamped non-negative value). -/
def posU16 (q : ℚ) : List ℕ := u16bytes (⌊max 0 (min q 65535)⌋).toNat

/-- `(int8_t)std::clamp((int)(q * 10), -127, 127)` stored through the
`uint8_t` buffer. -/
def velI8 (q : ℚ) : ℕ := u8byte (min 127 (max (-127) (truncQ (q * 10))))

/-- The 31-byte per-player record; the four-byte float encoding is the
parameter `enc`. -/
def serializePlayer (enc : ℚ → List ℕ) (p : Player) : List ℕ :=
  u32bytes p.id ++ u16ofInt (min p.score 65535) ++ [b2u8 p.alive, b2u8 p.boosting]
    ++ enc p.boostFuel ++ enc p.mutations.speed ++ enc p.mutations.cohesion
    ++ enc p.mutations.aggression ++ enc p.mutations.collectRange
    ++ [u8byte (min p.shieldTicks 255), u8byte (min p.speedBurstTicks 255),
        u8byte (min p.slowTicks 255)]

/-- The 10-byte per-boid record. -/
def serializeBoid (b : Boid) : List ℕ :=
  u32bytes b.playerId ++ posU16 b.pos.x ++ posU16 b.pos.y
    ++ [velI8 b.vel.x, velI8 b.vel.y]

/-- The 5-byte per-resource record (`(uint16_t)` casts of the raw floats). -/
def serializeResource (r : Resource) : List ℕ :=
  u16ofInt (truncQ r.pos.x) ++ u16ofInt (truncQ r.pos.y) ++ [r.rtype % 256]

def serializePickup (p : Pickup) : List ℕ :=
  u16ofInt (truncQ p.pos.x) ++ u16ofInt (truncQ p.pos.y) ++ [p.ptype % 256]

/-- The 12-byte header: six `uint16_t` fields. -/
def headerBytes (s : EngineState) : List ℕ :=
  u16bytes 4000 ++ u16bytes 4000 ++ u16bytes s.players.length
    ++ u16bytes s.boids.length
    ++ u16bytes (s.resources.filter (fun r => r.active)).length
    ++ u16bytes (s.pickups.filter (fun p => p.active)).length

/-- `GameEngine::serializeState`: header, then players, boids, active
resources and active pickups, in storage order. -/
def serializeState (enc : ℚ → List ℕ) (s : EngineState) : List ℕ :=
  headerBytes s
    ++ (s.players.map (serializePlayer enc)).flatten
    ++ (s.boids.map serializeBoid).flatten
    ++ ((s.resources.filter (fun r => r.active)).map serializeResource).flatten
    ++ ((s.pickups.filter (fun p => p.active)).map serializePickup).flatten

theorem length_serializePlayer (enc : ℚ → List ℕ)
    (henc : ∀ v, (enc v).length = 4) (p : Player) :
    (serializePlayer enc p).length = 31 := by
  simp [serializePlayer, u32bytes, u16ofInt, u16bytes, henc]

theorem length_serializeBoid (b : Boid) : (serializeBoid b).length = 10 := rfl

theorem length_serializeResource (r : Resource) :
    (serializeResource r).length = 5 := rfl

theorem length_serializePickup (p : Pickup) : (serializePickup p).length = 5 := rfl

theorem length_headerBytes (s : EngineState) : (headerBytes s).length = 12 := rfl

theorem length_flatten_const {α : Type} (L : List (List α)) (n : ℕ)
    (h : ∀ l ∈ L, l.length = n) : L.flatten.length = n * L.length := by
  induction L with
  | nil => simp
  | cons l L2 ih =>
    rw [List.flatten_cons, List.length_append, h l (List.mem_cons_self l L2),
      ih (fun x hx => h x (List.mem_cons_of_mem l hx)), List.length_cons]
    ring

theorem flatten_drop_block {α : Type} (n : ℕ) :
    ∀ (k : ℕ) (L : List (List α)), (∀ l ∈ L, l.length = n) →
      L.flatten.drop (n * k) = (L.drop k).flatten := by
  intro k
  induction k with
  | zero => intro L _; simp
  | succ k ih =>
    intro L h
    cases L with
    | nil => simp
    | cons l L2 =>
      rw [List.flatten_cons, Nat.mul_succ,
        show n * k + n = n + n * k from by ring, ← List.drop_drop]
      have hdl : (l ++ L2.flatten).drop n = L2.flatten := by
        rw [← h l (List.mem_cons_self l L2)]
        exact List.drop_left l L2.flatten
      rw [hdl, List.drop_succ_cons]
      exact ih L2 (fun x hx => h x (List.mem_cons_of_mem l hx))

/-- Extracting the `k`-th fixed-size block from the middle section of a
concatenated buffer. -/
theorem extract_block {α : Type} (pre post : List α) (n k : ℕ)
    (L : List (List α)) (hlen : ∀ l ∈ L, l.length = n)
    (x : List α) (hk : L[k]? = some x) :
    ((pre ++ L.flatten ++ post).drop (pre.length + n * k)).take n = x := by
  have hkx : x ∈ L := List.getElem?_mem hk
  have hxlen : x.length = n := hlen x hkx
  have hklt : k < L.length := by
    by_contra hge
    rw [List.getElem?_eq_none (by omega)] at hk
    cases hk
  have hFlen : L.flatten.length = n * L.length := length_flatten_const L n hlen
  have hle : pre.length + n * k ≤ (pre ++ L.flatten).length := by
    rw [List.length_append, hFlen]
    have := Nat.mul_le_mul_left n (le_of_lt hklt)
    omega
  rw [List.drop_append_of_le_length hle]
  have h2 : (pre ++ L.flatten).drop (pre.length + n * k)
      = L.flatten.drop (n * k) := by
    rw [← List.drop_drop, List.drop_left]
  rw [h2, flatten_drop_block n k L hlen, List.drop_eq_getElem_cons hklt]
  have hx : L[k] = x := by
    rw [List.getElem?_eq_getElem hklt] at hk
    exact Option.some.inj hk
  rw [hx, List.flatten_cons, List.append_assoc,
    List.take_append_of_le_length (le_of_eq hxlen.symm), ← hxlen,
    List.take_length]

/-- C8: the snapshot buffer has exactly
`12 + 31·numPlayers + 10·numBoids + 5·numActiveResources + 5·numActivePickups`
bytes; its first 12 bytes are the six little-endian `u16` header fields; the
`k`-th player record occupies the 31 bytes at offset `12 + 31k` with the
saturating score and effect-timer conversions; the `k`-th boid record
occupies 10 bytes at its offset with the truncating/clamping position and
velocity conversions; and each active resource and pickup occupies 5 bytes,
inactive ones omitted. -/
theorem serializeState_layout (enc : ℚ → List ℕ)
    (henc : ∀ v, (enc v).length = 4) (s : EngineState) :
    (serializeState enc s).length =
      12 + 31 * s.players.length + 10 * s.boids.length
        + 5 * (s.resources.filter (fun r => r.active)).length
        + 5 * (s.pickups.filter (fun p => p.active)).length ∧
    (serializeState enc s).take 12 = headerBytes s ∧
    (∀ k p, s.players[k]? = some p →
      ((serializeState enc s).drop (12 + 31 * k)).take 31 = serializePlayer enc p) ∧
    (∀ k b, s.boids[k]? = some b →
      ((serializeState enc s).drop (12 + 31 * s.players.length + 10 * k)).take 10
        = serializeBoid b) ∧
    (∀ k r, (s.resources.filter (fun r => r.active))[k]? = some r →
      ((serializeState enc s).drop
        (12 + 31 * s.players.length + 10 * s.boids.length + 5 * k)).take 5
        = serializeResource r) ∧
    (∀ k q, (s.pickups.filter (fun p => p.active))[k]? = some q →
      ((serializeState enc s).drop
        (12 + 31 * s.players.length + 10 * s.boids.length
          + 5 * (s.resources.filter (fun r => r.active)).length + 5 * k)).take 5
        = serializePickup q) := by
  have hP : ∀ l ∈ s.players.map (serializePlayer enc), l.length = 31 := by
    intro l hl
    obtain ⟨p, _, rfl⟩ := List.mem_map.mp hl
    exact length_serializePlayer enc henc p
  have hB : ∀ l ∈ s.boids.map serializeBoid, l.length = 10 := by
    intro l hl
    obtain ⟨b, _, rfl⟩ := List.mem_map.mp hl
    exact length_serializeBoid b
  have hR : ∀ l ∈ (s.resources.filter (fun r => r.active)).map serializeResource,
      l.length = 5 := by
    intro l hl
    obtain ⟨r, _, rfl⟩ := List.mem_map.mp hl
    exact length_serializeResource r
  have hK : ∀ l ∈ (s.pickups.filter (fun p => p.active)).map serializePickup,
      l.length = 5 := by
    intro l hl
    obtain ⟨q, _, rfl⟩ := List.mem_map.mp hl
    exact length_serializePickup q
  have hPlen := length_flatten_const _ 31 hP
  have hBlen := length_flatten_const _ 10 hB
  have hRlen := length_flatten_const _ 5 hR
  have hKlen := length_flatten_const _ 5 hK
  rw [List.length_map] at hPlen hBlen hRlen hKlen
  refine ⟨?_, ?_, ?_, ?_, ?_, ?_⟩
  · simp only [serializeState, List.length_append, length_headerBytes,
      hPlen, hBlen, hRlen, hKlen]
    try ring
  · simp only [serializeState, List.append_assoc]
    rw [List.take_append_of_le_length (le_of_eq (length_headerBytes s).symm),
      show (12 : ℕ) = (headerBytes s).length from (length_headerBytes s).symm,
      List.take_length]
  · intro k p hk
    have hkm : (s.players.map (serializePlayer enc))[k]? =
        some (serializePlayer enc p) := by
      rw [List.getElem?_map, hk]
      rfl
    have := extract_block (headerBytes s)
      ((s.boids.map serializeBoid).flatten
        ++ (((s.resources.filter (fun r => r.active)).map serializeResource).flatten
        ++ ((s.pickups.filter (fun p => p.active)).map serializePickup).flatten))
      31 k (s.players.map (serializePlayer enc)) hP _ hkm
    rw [length_headerBytes] at this
    simpa [serializeState, List.append_assoc] using this
  · intro k b hk
    have hkm : (s.boids.map serializeBoid)[k]? = some (serializeBoid b) := by
      rw [List.getElem?_map, hk]
      rfl
    have := extract_block
      (headerBytes s ++ (s.players.map (serializePlayer enc)).flatten)
      (((s.resources.filter (fun r => r.active)).map serializeResource).flatten
        ++ ((s.pickups.filter (fun p => p.active)).map serializePickup).flatten)
      10 k (s.boids.map serializeBoid) hB _ hkm
    rw [List.length_append, length_headerBytes, hPlen] at this
    simpa [serializeState, List.append_assoc] using this
  · intro k r hk
    have hkm : ((s.resources.filter (fun r => r.active)).map serializeResource)[k]?
        = some (serializeResource r) := by
      rw [List.getElem?_map, hk]
      rfl
    have := extract_block
      (headerBytes s ++ (s.players.map (serializePlayer enc)).flatten
        ++ (s.boids.map serializeBoid).flatten)
      (((s.pickups.filter (fun p => p.active)).map serializePickup).flatten)
      5 k ((s.resources.filter (fun r => r.active)).map serializeResource) hR _ hkm
    rw [List.length_append, List.length_append, length_headerBytes,
      hPlen, hBlen] at this
    simpa [serializeState, List.append_assoc] using this
  · intro k q hk
    have hkm : ((s.pickups.filter (fun p => p.active)).map serializePickup)[k]?
        = some (serializePickup q) := by
      rw [List.getElem?_map, hk]
      rfl
    have := extract_block
      (headerBytes s ++ (s.players.map (serializePlayer enc)).flatten
        ++ (s.boids.map serializeBoid).flatten
        ++ ((s.resources.filter (fun r => r.active)).map serializeResource).flatten)
      [] 5 k ((s.pickups.filter (fun p => p.active)).map serializePickup) hK _ hkm
    rw [List.length_append, List.length_append, List.length_append,
      length_headerBytes, hPlen, hBlen, hRlen] at this
    simpa [serializeState, List.append_assoc] using this

/-- A one-player, one-boid state with one active and one inactive resource
and one active pickup. -/
def c8State : EngineState :=
  { players := [Player.fresh 1],
    boids := [⟨1, 1, ⟨100, 200⟩, ⟨1, -2⟩⟩],
    resources := [⟨1, ⟨10, 20⟩, 2, 1, true⟩, ⟨2, ⟨30, 40⟩, 1, 0, false⟩],
    pickups := [⟨1, ⟨50, 60⟩, 3, true⟩],
    nextPlayerId := 2, nextBoidId := 2, nextResourceId := 3, nextPickupId := 2,
    resourceSpawnAccum := 0, pickupSpawnAccum := 0 }

/-- Witness for C8: with a four-byte float encoder, the snapshot of `c8State`
(1 player, 1 boid, 1 of 2 resources active, 1 pickup) is exactly
12 + 31 + 10 + 5 + 5 = 63 bytes. -/
theorem serializeState_layout_witness :
    (∀ v : ℚ, ((fun _ : ℚ => [0, 0, 0, 0]) v).length = 4) ∧
    (serializeState (fun _ => [0, 0, 0, 0]) c8State).length = 63 := by
  refine ⟨fun v => rfl, ?_⟩
  have h := (serializeState_layout (fun _ => [0, 0, 0, 0]) (fun v => rfl) c8State).1
  rw [h]
  decide

/-! ### C2: main statement and witness -/

/-- C2: inserting any list of entries whose points lie inside the root bounds
into a cleared quadtree, a query returns exactly the inserted entries
satisfying the half-open containment predicate — a permutation of the
filtered input, and duplicate-free whenever the input is. -/
theorem quadtree_query_exact (b : Rect) (es : List QTEntry) (range : Rect)
    (h : ∀ e ∈ es, b.containsPt e.x e.y) :
    ((buildTree b es).query range).Perm
      (es.filter (fun o => decide (range.containsPt o.x o.y))) ∧
    (es.Nodup → ((buildTree b es).query range).Nodup) := by
  refine ⟨query_buildTree_perm b es range h, fun hnd => ?_⟩
  exact ((query_buildTree_perm b es range h).nodup_iff).mpr (hnd.filter _)

/-- Witness for C2 on a concrete three-point set and query rectangle. -/
theorem quadtree_query_exact_witness :
    (∀ e ∈ [(⟨1, 10, 10⟩ : QTEntry), ⟨2, 50, 50⟩, ⟨3, 70, 70⟩],
      (⟨0, 0, 100, 100⟩ : Rect).containsPt e.x e.y) ∧
    ((buildTree ⟨0, 0, 100, 100⟩ [⟨1, 10, 10⟩, ⟨2, 50, 50⟩, ⟨3, 70, 70⟩]).query
        ⟨0, 0, 60, 60⟩).Perm
      ([(⟨1, 10, 10⟩ : QTEntry), ⟨2, 50, 50⟩, ⟨3, 70, 70⟩].filter
        (fun o => decide ((⟨0, 0, 60, 60⟩ : Rect).containsPt o.x o.y))) := by
  have hin : ∀ e ∈ [(⟨1, 10, 10⟩ : QTEntry), ⟨2, 50, 50⟩, ⟨3, 70, 70⟩],
      (⟨0, 0, 100, 100⟩ : Rect).containsPt e.x e.y := by
    intro e he
    fin_cases he <;> norm_num [Rect.containsPt]
  exact ⟨hin, (quadtree_query_exact _ _ _ hin).1⟩

/-! ### C10: boid ownership invariant -/

/-- Every boid's `playerId` refers to a present player record. -/
def OwnedBy (players : List Player) (boids : List Boid) : Prop :=
  ∀ b ∈ boids, ∃ p ∈ players, p.id = b.playerId

def WellOwned (s : EngineState) : Prop := OwnedBy s.players s.boids

theorem OwnedBy.mono_boids {ps : List Player} {bs bs' : List Boid}
    (hsub : ∀ b ∈ bs', b ∈ bs) (h : OwnedBy ps bs) : OwnedBy ps bs' :=
  fun b hb => h b (hsub b hb)

theorem OwnedBy.map_players {ps : List Player} {bs : List Boid}
    (f : Player → Player) (hf : ∀ p, (f p).id = p.id) (h : OwnedBy ps bs) :
    OwnedBy (ps.map f) bs := by
  intro b hb
  obtain ⟨p, hp, hpe⟩ := h b hb
  exact ⟨f p, List.mem_map_of_mem f hp, by rw [hf]; exact hpe⟩

theorem OwnedBy.updatePlayerPres {ps : List Player} {bs : List Boid} (pid : ℕ)
    (f : Player → Player) (hf : ∀ p, (f p).id = p.id) (h : OwnedBy ps bs) :
    OwnedBy (updatePlayer ps pid f) bs := by
  apply h.map_players
  intro p
  dsimp only
  split
  · exact hf p
  · rfl

theorem OwnedBy.append {ps : List Player} {bs₁ bs₂ : List Boid}
    (h1 : OwnedBy ps bs₁) (h2 : OwnedBy ps bs₂) : OwnedBy ps (bs₁ ++ bs₂) :=
  fun b hb => (List.mem_append.mp hb).elim (h1 b) (h2 b)

theorem OwnedBy.map_boids {ps : List Player} {bs : List Boid} (g : Boid → Boid)
    (hg : ∀ b, (g b).playerId = b.playerId) (h : OwnedBy ps bs) :
    OwnedBy ps (bs.map g) := by
  intro b' hb'
  obtain ⟨b, hb, rfl⟩ := List.mem_map.mp hb'
  rw [hg]
  exact h b hb

theorem findPlayer_mem_id {ps : List Player} {pid : ℕ} {p : Player}
    (h : findPlayer ps pid = some p) : p ∈ ps ∧ p.id = pid := by
  unfold findPlayer at h
  have h1 := List.mem_of_find?_eq_some h
  have h2 := List.find?_some h
  exact ⟨h1, eq_of_beq h2⟩

theorem updatePlayer_ids (ps : List Player) (pid : ℕ) (f : Player → Player)
    (hf : ∀ p, (f p).id = p.id) :
    ∀ p ∈ ps, ∃ q ∈ updatePlayer ps pid f, q.id = p.id := by
  intro p hp
  refine ⟨(fun p => if p.id == pid then f p else p) p,
    List.mem_map_of_mem _ hp, ?_⟩
  dsimp only
  split
  · exact hf p
  · rfl

theorem snd_mem_enumFrom {α : Type} :
    ∀ (l : List α) (n : ℕ) (ib : ℕ × α), ib ∈ List.enumFrom n l → ib.2 ∈ l := by
  intro l
  induction l with
  | nil => intro n ib h; cases h
  | cons a l2 ih =>
    intro n ib h
    rcases List.mem_cons.mp h with h | h
    · subst h; exact List.mem_cons_self a l2
    · exact List.mem_cons_of_mem a (ih (n + 1) ib h)

theorem applyResourceGain_id (v : ℤ) (ty : ℕ) (p : Player) :
    (applyResourceGain v ty p).id = p.id := by
  unfold applyResourceGain
  rcases ty with _ | _ | _ | _ | ty <;> rfl

theorem updateBoostFuel_id (p : Player) : (updateBoostFuel p).id = p.id := by
  simp only [updateBoostFuel]
  split_ifs <;> rfl

theorem clampBoid_playerId (b : Boid) : (clampBoid b).playerId = b.playerId := by
  simp only [clampBoid]
  split_ifs <;> rfl

theorem removeFirstOwned_subset :
    ∀ (bs : List Boid) (pid k : ℕ) (x : Boid),
      x ∈ removeFirstOwned bs pid k → x ∈ bs := by
  intro bs
  induction bs with
  | nil => intro pid k x h; cases h
  | cons b rest ih =>
    intro pid k x h
    unfold removeFirstOwned at h
    split at h
    · exact h
    · split at h
      · exact List.mem_cons_of_mem b (ih pid (k - 1) x h)
      · rcases List.mem_cons.mp h with h | h
        · subst h; exact List.mem_cons_self _ _
        · exact List.mem_cons_of_mem b (ih pid k x h)

theorem mineKill_subset (bs : List Boid) (pid : ℕ) :
    ∀ x ∈ mineKill bs pid, x ∈ bs := by
  intro x hx
  unfold mineKill at hx
  rw [List.mem_reverse] at hx
  have := removeFirstOwned_subset bs.reverse pid MINE_KILL_COUNT x hx
  exact List.mem_reverse.mp this

theorem eraseIdxSafe_subset (bs : List Boid) (k : ℕ) :
    ∀ x ∈ eraseIdxSafe bs k, x ∈ bs := by
  intro x hx
  unfold eraseIdxSafe at hx
  split at hx
  · exact (List.eraseIdx_sublist bs k).subset hx
  · exact hx

theorem foldl_eraseIdxSafe_subset :
    ∀ (l : List ℕ) (bs : List Boid) (x : Boid),
      x ∈ l.foldl eraseIdxSafe bs → x ∈ bs := by
  intro l
  induction l with
  | nil => intro bs x h; exact h
  | cons k rest ih =>
    intro bs x h
    rw [List.foldl_cons] at h
    exact eraseIdxSafe_subset bs k x (ih (eraseIdxSafe bs k) x h)

theorem wellOwned_boostFuelPhase (s : EngineState) (h : WellOwned s) :
    WellOwned (boostFuelPhase s) :=
  OwnedBy.map_players updateBoostFuel updateBoostFuel_id h

theorem wellOwned_tickPlayerEffects (s : EngineState) (h : WellOwned s) :
    WellOwned (tickPlayerEffects s) :=
  OwnedBy.map_players _ (fun _ => rfl) h

theorem spawnResources_players (rpos : Vec2) (rval : ℤ) (rty : ℕ)
    (s : EngineState) : (spawnResources rpos rval rty s).players = s.players := by
  simp only [spawnResources]
  split_ifs <;> rfl

theorem spawnResources_boids (rpos : Vec2) (rval : ℤ) (rty : ℕ)
    (s : EngineState) : (spawnResources rpos rval rty s).boids = s.boids := by
  simp only [spawnResources]
  split_ifs <;> rfl

theorem resourceSpawnLoop_players (rpos : ℕ → Vec2) (rval : ℕ → ℤ)
    (rty : ℕ → ℕ) : ∀ (k : ℕ) (s : EngineState),
      (resourceSpawnLoop rpos rval rty k s).players = s.players := by
  intro k
  induction k with
  | zero => intro s; rfl
  | succ k ih =>
    intro s
    rw [resourceSpawnLoop, ih]
    exact spawnResources_players _ _ _ s

theorem resourceSpawnLoop_boids (rpos : ℕ → Vec2) (rval : ℕ → ℤ)
    (rty : ℕ → ℕ) : ∀ (k : ℕ) (s : EngineState),
      (resourceSpawnLoop rpos rval rty k s).boids = s.boids := by
  intro k
  induction k with
  | zero => intro s; rfl
  | succ k ih =>
    intro s
    rw [resourceSpawnLoop, ih]
    exact spawnResources_boids _ _ _ s

theorem wellOwned_tickResourceSpawns (rpos : ℕ → Vec2) (rval : ℕ → ℤ)
    (rty : ℕ → ℕ) (s : EngineState) (h : WellOwned s) :
    WellOwned (tickResourceSpawns rpos rval rty s) := by
  unfold WellOwned tickResourceSpawns
  rw [resourceSpawnLoop_players, resourceSpawnLoop_boids]
  exact h

theorem spawnPickups_players (ppos : Vec2) (pty : ℕ) (s : EngineState) :
    (spawnPickups ppos pty s).players = s.players := by
  simp only [spawnPickups]
  split_ifs <;> rfl

theorem spawnPickups_boids (ppos : Vec2) (pty : ℕ) (s : EngineState) :
    (spawnPickups ppos pty s).boids = s.boids := by
  simp only [spawnPickups]
  split_ifs <;> rfl

theorem wellOwned_spawnPickups (ppos : Vec2) (pty : ℕ) (s : EngineState)
    (h : WellOwned s) : WellOwned (spawnPickups ppos pty s) := by
  unfold WellOwned
  rw [spawnPickups_players, spawnPickups_boids]
  exact h

theorem wellOwned_applyBoidRules (mv : ℕ → Vec2 × Vec2) (s : EngineState)
    (h : WellOwned s) : WellOwned (applyBoidRules mv s) := by
  intro b' hb'
  obtain ⟨ib, hib, rfl⟩ := List.mem_map.mp hb'
  have hb2 : ib.2 ∈ s.boids := snd_mem_enumFrom s.boids 0 ib hib
  cases hfp : findPlayer s.players ib.2.playerId with
  | none => simp only [hfp]; exact h ib.2 hb2
  | some q => simp only [hfp]; exact h ib.2 hb2

theorem wellOwned_clampPositions (s : EngineState) (h : WellOwned s) :
    WellOwned (clampPositions s) :=
  OwnedBy.map_boids clampBoid clampBoid_playerId h

theorem wellOwned_consumeResource (ri : ℕ) (res : Resource) :
    ∀ (l : List QTEntry) (st : EngineState), WellOwned st →
      WellOwned (consumeResource ri res st l) := by
  intro l
  induction l with
  | nil => intro st h; exact h
  | cons ne rest ih =>
    intro st h
    rcases hgo : st.boids[ne.boidIndex]? with _ | b
    · simp only [consumeResource, hgo]
      exact ih st h
    · rcases hfp : findPlayer st.players b.playerId with _ | player
      · simp only [consumeResource, hgo, hfp]
        exact ih st h
      · simp only [consumeResource, hgo, hfp]
        split
        · obtain ⟨hmem, hid⟩ := findPlayer_mem_id hfp
          have hupd : OwnedBy
              (updatePlayer st.players player.id
                (applyResourceGain res.value res.rtype)) st.boids :=
            OwnedBy.updatePlayerPres player.id _
              (applyResourceGain_id res.value res.rtype) h
          split
          · refine OwnedBy.append hupd ?_
            intro b' hb'
            simp only [List.mem_singleton] at hb'
            subst hb'
            exact updatePlayer_ids st.players player.id _
              (applyResourceGain_id res.value res.rtype) player hmem
          · exact hupd
        · exact ih st h

theorem wellOwned_collectResourceStep (t : QuadTree) (st : EngineState)
    (ri : ℕ) (h : WellOwned st) : WellOwned (collectResourceStep t st ri) := by
  rcases hre : st.resources[ri]? with _ | res
  · simp only [collectResourceStep, hre]
    exact h
  · simp only [collectResourceStep, hre]
    split
    · exact h
    · exact wellOwned_consumeResource ri res _ st h

theorem wellOwned_collectResources (t : QuadTree) (s : EngineState)
    (h : WellOwned s) : WellOwned (collectResources t s) := by
  have key : ∀ (l : List ℕ) (st : EngineState), WellOwned st →
      WellOwned (l.foldl (collectResourceStep t) st) := by
    intro l
    induction l with
    | nil => intro st h2; exact h2
    | cons ri rest ih =>
      intro st h2
      rw [List.foldl_cons]
      exact ih _ (wellOwned_collectResourceStep t st ri h2)
  exact key _ s h

theorem wellOwned_pickupEffect (jitter : ℕ → Vec2) (normO : Vec2 → Vec2)
    (pickup : Pickup) (b : Boid) (player : Player) (st : EngineState)
    (hmem : player ∈ st.players) (h : WellOwned st) :
    WellOwned (pickupEffect jitter normO pickup b player st) := by
  unfold pickupEffect
  split
  · exact OwnedBy.updatePlayerPres player.id _ (fun _ => rfl) h
  · simp only [massSpawn]
    split
    · refine OwnedBy.append h ?_
      intro b' hb'
      obtain ⟨i, _, rfl⟩ := List.mem_map.mp hb'
      exact ⟨player, hmem, rfl⟩
    · exact h
  · exact OwnedBy.updatePlayerPres player.id _ (fun _ => rfl) h
  · exact OwnedBy.updatePlayerPres player.id _ (fun _ => rfl) h
  · exact OwnedBy.updatePlayerPres player.id _ (fun _ => rfl) h
  · refine OwnedBy.map_boids _ (fun bb => ?_) h
    dsimp only
    split <;> rfl
  · exact OwnedBy.updatePlayerPres player.id _ (fun _ => rfl) h
  · exact OwnedBy.mono_boids (mineKill_subset st.boids player.id) h
  · exact h

theorem wellOwned_consumePickup (jitter : ℕ → Vec2) (normO : Vec2 → Vec2)
    (pi : ℕ) (pickup : Pickup) :
    ∀ (l : List QTEntry) (st : EngineState), WellOwned st →
      WellOwned (consumePickup jitter normO pi pickup st l) := by
  intro l
  induction l with
  | nil => intro st h; exact h
  | cons ne rest ih =>
    intro st h
    rcases hgo : st.boids[ne.boidIndex]? with _ | b
    · simp only [consumePickup, hgo]
      exact ih st h
    · rcases hfp : findPlayer st.players b.playerId with _ | player
      · simp only [consumePickup, hgo, hfp]
        split
        · exact ih st h
        · exact ih st h
      · simp only [consumePickup, hgo, hfp]
        split
        · exact ih st h
        · obtain ⟨hmem, _⟩ := findPlayer_mem_id hfp
          exact wellOwned_pickupEffect jitter normO pickup b player _ hmem h

theorem wellOwned_collectPickupStep (jitter : ℕ → Vec2) (normO : Vec2 → Vec2)
    (t : QuadTree) (st : EngineState) (pi : ℕ) (h : WellOwned st) :
    WellOwned (collectPickupStep jitter normO t st pi) := by
  rcases hpk : st.pickups[pi]? with _ | pickup
  · simp only [collectPickupStep, hpk]
    exact h
  · simp only [collectPickupStep, hpk]
    split
    · exact h
    · exact wellOwned_consumePickup jitter normO pi pickup _ st h

theorem wellOwned_collectPickups (jitter : ℕ → Vec2) (normO : Vec2 → Vec2)
    (t : QuadTree) (s : EngineState) (h : WellOwned s) :
    WellOwned (collectPickups jitter normO t s) := by
  have key : ∀ (l : List ℕ) (st : EngineState), WellOwned st →
      WellOwned (l.foldl (collectPickupStep jitter normO t) st) := by
    intro l
    induction l with
    | nil => intro st h2; exact h2
    | cons pi rest ih =>
      intro st h2
      rw [List.foldl_cons]
      exact ih _ (wellOwned_collectPickupStep jitter normO t st pi h2)
  exact key _ s h

theorem wellOwned_handleCombat (t : QuadTree) (s : EngineState)
    (h : WellOwned s) : WellOwned (handleCombat t s) :=
  OwnedBy.mono_boids
    (fun x hx => foldl_eraseIdxSafe_subset _ s.boids x hx) h

theorem wellOwned_livenessCheck (s : EngineState) (h : WellOwned s) :
    WellOwned (livenessCheck s) := by
  refine OwnedBy.map_players _ (fun p => ?_) h
  dsimp only
  split <;> rfl

theorem wellOwned_tick (o : TickOracle) (s : EngineState) (h : WellOwned s) :
    WellOwned (tick o s) := by
  unfold tick
  exact wellOwned_livenessCheck _ (wellOwned_handleCombat _ _
    (wellOwned_collectPickups _ _ _ _ (wellOwned_collectResources _ _
      (wellOwned_clampPositions _ (wellOwned_applyBoidRules _ _
        (wellOwned_spawnPickups _ _ _ (wellOwned_tickResourceSpawns _ _ _ _
          (wellOwned_tickPlayerEffects _ (wellOwned_boostFuelPhase _ h)))))))))

theorem wellOwned_addPlayer (c : Vec2) (sp vs : ℕ → Vec2) (s : EngineState)
    (h : WellOwned s) : WellOwned (addPlayer c sp vs s) := by
  intro b hb
  rcases List.mem_append.mp hb with hb | hb
  · obtain ⟨p, hp, hpe⟩ := h b hb
    exact ⟨p, List.mem_append_left _ hp, hpe⟩
  · obtain ⟨i, _, rfl⟩ := List.mem_map.mp hb
    exact ⟨Player.fresh s.nextPlayerId,
      List.mem_append_right _ (List.mem_singleton.mpr rfl), rfl⟩

theorem wellOwned_removePlayer (pid : ℕ) (s : EngineState) (h : WellOwned s) :
    WellOwned (removePlayer pid s) := by
  intro b hb
  simp only [removePlayer, List.mem_filter] at hb
  obtain ⟨hbmem, hbneq⟩ := hb
  obtain ⟨p, hp, hpe⟩ := h b hbmem
  refine ⟨p, ?_, hpe⟩
  simp only [removePlayer, List.mem_filter]
  refine ⟨hp, ?_⟩
  rw [hpe]
  exact hbneq

theorem wellOwned_setPlayerCursor (pid : ℕ) (x y : ℚ) (s : EngineState)
    (h : WellOwned s) : WellOwned (setPlayerCursor pid x y s) :=
  OwnedBy.updatePlayerPres pid _ (fun _ => rfl) h

theorem wellOwned_setPlayerBoost (pid : ℕ) (a : Bool) (s : EngineState)
    (h : WellOwned s) : WellOwned (setPlayerBoost pid a s) :=
  OwnedBy.updatePlayerPres pid _ (fun _ => rfl) h

theorem initialState_players (rpos : ℕ → Vec2) (rval : ℕ → ℤ) (rty : ℕ → ℕ) :
    (initialState rpos rval rty).players = [] := by
  unfold initialState
  generalize (List.range (MAX_RESOURCES / 2)) = l
  induction l using List.reverseRecOn with
  | nil => rfl
  | append_singleton l i ih =>
    rw [List.foldl_append, List.foldl_cons, List.foldl_nil]
    show (spawnResources _ _ _ _).players = []
    rw [spawnResources_players]
    exact ih

theorem initialState_boids (rpos : ℕ → Vec2) (rval : ℕ → ℤ) (rty : ℕ → ℕ) :
    (initialState rpos rval rty).boids = [] := by
  unfold initialState
  generalize (List.range (MAX_RESOURCES / 2)) = l
  induction l using List.reverseRecOn with
  | nil => rfl
  | append_singleton l i ih =>
    rw [List.foldl_append, List.foldl_cons, List.foldl_nil]
    show (spawnResources _ _ _ _).boids = []
    rw [spawnResources_boids]
    exact ih

/-- One invocation of the public API: player lifecycle, input, or a tick
(with all random draws and steering results supplied by oracles). -/
inductive Step : EngineState → EngineState → Prop where
  | addPlayer (c : Vec2) (sp vs : ℕ → Vec2) (s : EngineState) :
      Step s (addPlayer c sp vs s)
  | removePlayer (pid : ℕ) (s : EngineState) : Step s (removePlayer pid s)
  | setCursor (pid : ℕ) (x y : ℚ) (s : EngineState) :
      Step s (setPlayerCursor pid x y s)
  | setBoost (pid : ℕ) (a : Bool) (s : EngineState) :
      Step s (setPlayerBoost pid a s)
  | tick (o : TickOracle) (s : EngineState) : Step s (tick o s)

/-- Engine states reachable from a freshly constructed engine through any
sequence of public API calls. -/
inductive Reachable : EngineState → Prop where
  | init (rpos : ℕ → Vec2) (rval : ℕ → ℤ) (rty : ℕ → ℕ) :
      Reachable (initialState rpos rval rty)
  | step (s s' : EngineState) : Reachable s → Step s s' → Reachable s'

/-- C10: after every public API operation on a freshly constructed engine,
every boid's `playerId` is the id of a present player record — dangling owner
references never arise. -/
theorem boid_owners_exist (s : EngineState) (h : Reachable s) : WellOwned s := by
  induction h with
  | init rpos rval rty =>
    unfold WellOwned
    rw [initialState_boids]
    intro b hb
    cases hb
  | step s s' _ hstep ih =>
    cases hstep with
    | addPlayer c sp vs s => exact wellOwned_addPlayer c sp vs s ih
    | removePlayer pid s => exact wellOwned_removePlayer pid s ih
    | setCursor pid x y s => exact wellOwned_setPlayerCursor pid x y s ih
    | setBoost pid a s => exact wellOwned_setPlayerBoost pid a s ih
    | tick o s => exact wellOwned_tick o s ih

/-- Witness for C10 at a concrete reachable state: a fresh engine after one
`addPlayer` call. -/
theorem boid_owners_exist_witness :
    WellOwned (addPlayer ⟨2000, 2000⟩ (fun _ => ⟨0, 0⟩) (fun _ => ⟨0, 0⟩)
      (initialState (fun _ => ⟨500, 500⟩) (fun _ => 1) (fun _ => 0))) :=
  boid_owners_exist _
    (Reachable.step _ _ (Reachable.init _ _ _)
      (Step.addPlayer ⟨2000, 2000⟩ (fun _ => ⟨0, 0⟩) (fun _ => ⟨0, 0⟩) _))

end SwarmMind
